import Mathlib

/-!
Verification of the animation splicer (`src/src/main.rs`) and its companion
validator (`src/validator/src/main.rs`).

The two binaries are embedded shallowly:

* The splicer's `splice_anim` is modelled on already-decoded containers
  (`ssbh_lib::formats::anim::Anim`); file reading/decoding is an external
  codec per the design and is out of scope.  Byte buffers are `List Nat`,
  machine integers are `Nat` (the one place where truncation is observable,
  the `current_offset as u32` write into `data_offset`, is modelled
  explicitly with `% 2^32`).  A Rust panic (slice index out of bounds,
  `Option::unwrap` on `None`) is modelled as the distinguished outcome
  `SpliceResult.crash`; `anyhow` early-return errors become
  `SpliceResult.error`.
* The validator's `validate_anim` is modelled on decode *results*
  (`Except String AnimData`), mirroring the two `match ... from_file`
  blocks at its head.  `f32` frame values and `ssbh_data` transform
  samples are opaque scalars compared only for equality, so they are
  modelled as `Nat`.
-/

set_option maxRecDepth 8192

namespace AnimSplice

/-- `ssbh_lib::formats::anim::GroupType`. -/
inductive GroupType
  | Transform
  | Visibility
  | Material
  | Camera
deriving DecidableEq, Repr

/-- `ssbh_lib::formats::anim::TrackV2`.  `flags` bundles the source's
`TrackFlags` pair, `data_offset` is a `u32` and `data_size` a `u64` in the
source; both are carried as `Nat`, with the `u32` truncation applied at the
single point the source performs it (`current_offset as u32`). -/
structure TrackV2 where
  name : String
  flags : Nat
  frame_count : Nat
  transition_flags : Nat
  data_offset : Nat
  data_size : Nat
deriving DecidableEq, Repr

/-- `ssbh_lib::formats::anim::Node`: a name plus its tracks. -/
structure Node where
  name : String
  tracks : List TrackV2
deriving DecidableEq, Repr

/-- `ssbh_lib::formats::anim::Group`. -/
structure Group where
  group_type : GroupType
  nodes : List Node
deriving DecidableEq, Repr

/-- `ssbh_lib::prelude::Anim`.  `V12` is the legacy variant; `splice_anim`
rejects it before touching any of its fields, so it is carried without
fields.  `final_frame_index` is an `f32` in the source that the splicer
only moves around, never computes with; it is opaque here (`Nat`), as are
the vendor fields `unk1`, `unk2` and the `V21`-only `unk_data`. -/
inductive Anim
  | V12
  | V20 (final_frame_index : Nat) (unk1 : Nat) (unk2 : Nat) (name : String)
      (groups : List Group) (buffer : List Nat)
  | V21 (final_frame_index : Nat) (unk1 : Nat) (unk2 : Nat) (name : String)
      (groups : List Group) (buffer : List Nat) (unk_data : Nat)
deriving DecidableEq, Repr

/-- The groups of a non-legacy container (the `V20 { groups, .. } |
V21 { groups, .. }` destructuring used throughout `splice_anim`; the `V12`
case is unreachable there because of the early version check). -/
def Anim.animGroups : Anim → List Group
  | .V12 => []
  | .V20 _ _ _ _ groups _ => groups
  | .V21 _ _ _ _ groups _ _ => groups

/-- The byte buffer of a non-legacy container. -/
def Anim.animBuffer : Anim → List Nat
  | .V12 => []
  | .V20 _ _ _ _ _ buffer => buffer
  | .V21 _ _ _ _ _ buffer _ => buffer

/-- Errors surfaced through `anyhow` in `splice_anim`:
`"v12 reference anim not supported!"`, `"v12 modified anim not supported!"`,
and the declared-unreachable fallthrough of the final `match`. -/
inductive SpliceError
  | v12Reference
  | v12Modified
  | unreachableVariant
deriving DecidableEq, Repr

/-- Outcome of `splice_anim` on decoded containers.  `crash` models a Rust
panic (out-of-bounds slice/index, `unwrap` on `None`), which in the source
aborts instead of returning a `Result`. -/
inductive SpliceResult
  | ok (anim : Anim)
  | error (e : SpliceError)
  | crash
deriving DecidableEq, Repr

/-- `current_offset as u32`: `u64` to `u32` truncation. -/
def u32cast (n : Nat) : Nat := n % 4294967296

/-- `&buffer[start..stop]` on a byte vector: `some` slice when in bounds,
`none` (panic) when `start > stop` or `stop > buffer.len()`. -/
def sliceRange (buffer : List Nat) (start stop : Nat) : Option (List Nat) :=
  if start ≤ stop ∧ stop ≤ buffer.length then
    some ((buffer.drop start).take (stop - start))
  else none

/-- First-match association-list lookup.  Insertions below prepend, so the
first match is the most recent insertion, matching `HashMap::insert`
overwrite semantics. -/
def lookupAssoc : List (String × List Nat) → String → Option (List Nat)
  | [], _ => none
  | (k, v) :: rest, key => if k = key then some v else lookupAssoc rest key

/-- The reference data gathered by the first loop of `splice_anim`:
`reference_node_name_to_buffer` (the map is also mirrored by the unused
`reference_node_name_to_track`) and `reference_node_names`. -/
structure RefData where
  nameToBuffer : List (String × List Nat)
  nodeNames : List String
deriving DecidableEq, Repr

/-- Body of the gather loop over the nodes of one reference `Transform`
group: `node.tracks.elements[0]` (panics when the node has no tracks),
slice `buffer[data_offset .. data_offset + data_size]` (panics when out of
bounds), record the slice under the node's name and push the name. -/
def gatherNodes (buffer : List Nat) : RefData → List Node → Option RefData
  | acc, [] => some acc
  | acc, node :: rest =>
    match node.tracks.get? 0 with
    | none => none
    | some track =>
      match sliceRange buffer track.data_offset (track.data_offset + track.data_size) with
      | none => none
      | some payload =>
        gatherNodes buffer
          { nameToBuffer := (node.name, payload) :: acc.nameToBuffer,
            nodeNames := acc.nodeNames ++ [node.name] }
          rest

/-- Gather loop over the reference groups, skipping non-`Transform`
groups. -/
def gatherGroups (buffer : List Nat) : RefData → List Group → Option RefData
  | acc, [] => some acc
  | acc, g :: rest =>
    if g.group_type = GroupType.Transform then
      match gatherNodes buffer acc g.nodes with
      | none => none
      | some acc' => gatherGroups buffer acc' rest
    else gatherGroups buffer acc rest

def gatherReference (groups : List Group) (buffer : List Nat) : Option RefData :=
  gatherGroups buffer { nameToBuffer := [], nodeNames := [] } groups

/-- Mutable state of the output construction: `current_offset` and
`new_buffer`. -/
structure BuildState where
  current_offset : Nat
  new_buffer : List Nat
deriving DecidableEq, Repr

/-- One track of a reference-sourced node: build the new track with
`data_offset = current_offset as u32` and the remaining fields copied,
append `reference_node_name_to_buffer[name]` (panic when the name is
absent — this `unwrap` is what the Vis/Mat fallback loop can trip on),
and advance `current_offset` by the track's `data_size`. -/
def copyTrackFromMap (refMap : List (String × List Nat)) (name : String)
    (st : BuildState) (track : TrackV2) : Option (BuildState × TrackV2) :=
  match lookupAssoc refMap name with
  | none => none
  | some payload =>
    some ({ current_offset := st.current_offset + track.data_size,
            new_buffer := st.new_buffer ++ payload },
          { track with data_offset := u32cast st.current_offset })

/-- One track copied directly from the modified container's buffer:
slice `buffer[data_offset .. data_offset + data_size]` (panic when out of
bounds), append it, advance the offset. -/
def copyTrackFromBuffer (buffer : List Nat)
    (st : BuildState) (track : TrackV2) : Option (BuildState × TrackV2) :=
  match sliceRange buffer track.data_offset (track.data_offset + track.data_size) with
  | none => none
  | some payload =>
    some ({ current_offset := st.current_offset + track.data_size,
            new_buffer := st.new_buffer ++ payload },
          { track with data_offset := u32cast st.current_offset })

/-- Run a per-element copy step over a list, threading the build state and
collecting the rebuilt elements; `none` propagates a panic. -/
def stepAll {α β : Type} (f : BuildState → α → Option (BuildState × β)) :
    BuildState → List α → Option (BuildState × List β)
  | st, [] => some (st, [])
  | st, a :: rest =>
    match f st a with
    | none => none
    | some (st', b) =>
      match stepAll f st' rest with
      | none => none
      | some (st'', bs) => some (st'', b :: bs)

/-- Rebuild one node whose payload bytes come from the gathered name map
(the reference-Transform copy loop and the Vis/Mat fallback loop): a fresh
node with the same name whose tracks are each copied via
`copyTrackFromMap`. -/
def copyNodeFromMap (refMap : List (String × List Nat))
    (st : BuildState) (node : Node) : Option (BuildState × Node) :=
  match stepAll (copyTrackFromMap refMap node.name) st node.tracks with
  | none => none
  | some (st', tracks) => some (st', { name := node.name, tracks := tracks })

/-- Rebuild one node whose payload bytes are sliced from a source buffer
(the new-bone loop and the modified Vis/Mat loop). -/
def copyNodeFromBuffer (buffer : List Nat)
    (st : BuildState) (node : Node) : Option (BuildState × Node) :=
  match stepAll (copyTrackFromBuffer buffer) st node.tracks with
  | none => none
  | some (st', tracks) => some (st', { name := node.name, tracks := tracks })

/-- Second loop of `splice_anim`: walk the reference groups, and for each
`Transform` group copy every node (payload bytes through the gathered
map).  All copied nodes accumulate into the single new transform group. -/
def refTransformPhase (refMap : List (String × List Nat)) :
    BuildState → List Group → Option (BuildState × List Node)
  | st, [] => some (st, [])
  | st, g :: rest =>
    if g.group_type = GroupType.Transform then
      match stepAll (copyNodeFromMap refMap) st g.nodes with
      | none => none
      | some (st', ns) =>
        match refTransformPhase refMap st' rest with
        | none => none
        | some (st'', ns') => some (st'', ns ++ ns')
    else refTransformPhase refMap st rest

/-- Third loop: walk the modified groups, and for each `Transform` group
copy every node whose name is *not* in `reference_node_names` (payload
bytes sliced from the modified buffer). -/
def newBonesPhase (refNames : List String) (modBuffer : List Nat) :
    BuildState → List Group → Option (BuildState × List Node)
  | st, [] => some (st, [])
  | st, g :: rest =>
    if g.group_type = GroupType.Transform then
      match stepAll (copyNodeFromBuffer modBuffer) st
          (g.nodes.filter (fun n => decide (n.name ∉ refNames))) with
      | none => none
      | some (st', ns) =>
        match newBonesPhase refNames modBuffer st' rest with
        | none => none
        | some (st'', ns') => some (st'', ns ++ ns')
    else newBonesPhase refNames modBuffer st rest

/-- Fourth loop: every non-`Transform` group of the modified container is
rebuilt in full, payload bytes sliced from the modified buffer. -/
def modGroupsPhase (modBuffer : List Nat) :
    BuildState → List Group → Option (BuildState × List Group)
  | st, [] => some (st, [])
  | st, g :: rest =>
    if g.group_type = GroupType.Transform then
      modGroupsPhase modBuffer st rest
    else
      match stepAll (copyNodeFromBuffer modBuffer) st g.nodes with
      | none => none
      | some (st', ns) =>
        match modGroupsPhase modBuffer st' rest with
        | none => none
        | some (st'', gs) =>
          some (st'', { group_type := g.group_type, nodes := ns } :: gs)

/-- Fifth loop: every non-`Transform` reference group whose category is
absent from `modified_group_types` is rebuilt — but its payload bytes are
fetched from `reference_node_name_to_buffer`, the map keyed by *Transform*
node names (`.get(..).unwrap()`), exactly as the source does. -/
def fallbackPhase (refMap : List (String × List Nat)) (modTypes : List GroupType) :
    BuildState → List Group → Option (BuildState × List Group)
  | st, [] => some (st, [])
  | st, g :: rest =>
    if g.group_type = GroupType.Transform then
      fallbackPhase refMap modTypes st rest
    else if g.group_type ∈ modTypes then
      fallbackPhase refMap modTypes st rest
    else
      match stepAll (copyNodeFromMap refMap) st g.nodes with
      | none => none
      | some (st', ns) =>
        match fallbackPhase refMap modTypes st' rest with
        | none => none
        | some (st'', gs) =>
          some (st'', { group_type := g.group_type, nodes := ns } :: gs)

/-- The group/buffer construction of `splice_anim` between the version
checks and the final metadata rebuild. -/
def spliceGroups (refGroups : List Group) (refBuffer : List Nat)
    (modGroups : List Group) (modBuffer : List Nat) :
    Option (List Group × List Nat) :=
  match gatherReference refGroups refBuffer with
  | none => none
  | some refData =>
    match refTransformPhase refData.nameToBuffer { current_offset := 0, new_buffer := [] } refGroups with
    | none => none
    | some (st1, tNodes1) =>
      match newBonesPhase refData.nodeNames modBuffer st1 modGroups with
      | none => none
      | some (st2, tNodes2) =>
        match modGroupsPhase modBuffer st2 modGroups with
        | none => none
        | some (st3, modGs) =>
          match fallbackPhase refData.nameToBuffer (modGroups.map (fun g => g.group_type))
              st3 refGroups with
          | none => none
          | some (st4, fbGs) =>
            some ({ group_type := GroupType.Transform, nodes := tNodes1 ++ tNodes2 }
                    :: (modGs ++ fbGs),
                  st4.new_buffer)

/-- `splice_anim` on decoded containers: the two `V12` early returns, the
construction of the new groups and buffer, and the final metadata rebuild
that copies every scalar field from the reference container. -/
def splice_anim (reference_anim modified_anim : Anim) : SpliceResult :=
  match reference_anim with
  | .V12 => .error .v12Reference
  | _ =>
    match modified_anim with
    | .V12 => .error .v12Modified
    | _ =>
      match spliceGroups reference_anim.animGroups reference_anim.animBuffer
          modified_anim.animGroups modified_anim.animBuffer with
      | none => .crash
      | some (newGroups, newBuffer) =>
        match reference_anim with
        | .V20 final_frame_index unk1 unk2 name _ _ =>
          .ok (.V20 final_frame_index unk1 unk2 name newGroups newBuffer)
        | .V21 final_frame_index unk1 unk2 name _ _ unk_data =>
          .ok (.V21 final_frame_index unk1 unk2 name newGroups newBuffer unk_data)
        | .V12 => .error .unreachableVariant

/-- Bytes addressed by an (offset, size) descriptor in a buffer. -/
def regionBytes (buffer : List Nat) (offset size : Nat) : List Nat :=
  (buffer.drop offset).take size

/-- Payload bytes of one track descriptor. -/
def trackBytes (buffer : List Nat) (t : TrackV2) : List Nat :=
  regionBytes buffer t.data_offset t.data_size

/-- Payload bytes of a node: its tracks' payloads in order. -/
def nodePayloadBytes (buffer : List Nat) (n : Node) : List Nat :=
  (n.tracks.map (trackBytes buffer)).flatten

/-- The nodes of all `Transform` groups, in encounter order — the node
sequence every transform-related loop of `splice_anim` walks. -/
def transformNodes : List Group → List Node
  | [] => []
  | g :: rest =>
    if g.group_type = GroupType.Transform then g.nodes ++ transformNodes rest
    else transformNodes rest

/-- The non-`Transform` groups in encounter order. -/
def nonTransformGroups : List Group → List Group
  | [] => []
  | g :: rest =>
    if g.group_type = GroupType.Transform then nonTransformGroups rest
    else g :: nonTransformGroups rest

def sumTrackSizes (ts : List TrackV2) : Nat :=
  (ts.map (fun t => t.data_size)).sum

def sumNodeSizes (ns : List Node) : Nat :=
  (ns.map (fun n => sumTrackSizes n.tracks)).sum

def sumGroupListSizes (gs : List Group) : Nat :=
  (gs.map (fun g => sumNodeSizes g.nodes)).sum

/-- All track descriptors of a group list in emission order (groups, then
nodes, then tracks). -/
def allTracks (groups : List Group) : List TrackV2 :=
  ((groups.map (fun g => (g.nodes.map (fun n => n.tracks)).flatten)).flatten)

/-- The payload slice the gather loop records for a node: its track 0's
bytes (`[]` is never used — gather panics instead when track 0 is
absent). -/
def headTrackBytes (buffer : List Nat) (n : Node) : List Nat :=
  match n.tracks.get? 0 with
  | some t => trackBytes buffer t
  | none => []

/-- The construction invariant `current_offset == new_buffer.len()`,
which the source maintains whenever every appended slice has exactly the
announced `data_size` bytes. -/
def Aligned (st : BuildState) : Prop :=
  st.current_offset = st.new_buffer.length

/-- Relation between a source track and its rebuilt copy: same descriptor
except for a fresh offset, and the rebuilt offset addresses the source
track's payload bytes in the new buffer (and still does after the buffer
is extended on the right). -/
def trackRebuilt (st' : BuildState) (srcBuffer : List Nat) (t t' : TrackV2) : Prop :=
  (∃ off, t' = { t with data_offset := off }) ∧
    ∀ ext, trackBytes (st'.new_buffer ++ ext) t' = trackBytes srcBuffer t

/-- Relation between a reference transform node and its rebuilt copy,
for single-track nodes whose payload `P n` came from the gathered map. -/
def nodeRebuilt (st' : BuildState) (P : Node → List Nat) (n n' : Node) : Prop :=
  n'.name = n.name ∧ ∃ t off, n.tracks = [t] ∧
    n'.tracks = [{ t with data_offset := off }] ∧
    ∀ ext, trackBytes (st'.new_buffer ++ ext) { t with data_offset := off } = P n

/-- Node-level lift of `trackRebuilt` for slice-copied nodes. -/
def nodeSliceRebuilt (st' : BuildState) (srcBuffer : List Nat) (n n' : Node) : Prop :=
  n'.name = n.name ∧ List.Forall₂ (trackRebuilt st' srcBuffer) n.tracks n'.tracks

/-- Group-level lift of `nodeSliceRebuilt`. -/
def groupSliceRebuilt (st' : BuildState) (srcBuffer : List Nat) (g g' : Group) : Prop :=
  g'.group_type = g.group_type ∧
    List.Forall₂ (nodeSliceRebuilt st' srcBuffer) g.nodes g'.nodes

/-- Content equality of track descriptors across two buffers: every field
but the offset agrees, and the addressed payload bytes agree. -/
def TrackContentEq (srcBuffer outBuffer : List Nat) (src out : TrackV2) : Prop :=
  out.name = src.name ∧ out.flags = src.flags ∧ out.frame_count = src.frame_count ∧
    out.transition_flags = src.transition_flags ∧ out.data_size = src.data_size ∧
    trackBytes outBuffer out = trackBytes srcBuffer src

def NodeContentEq (srcBuffer outBuffer : List Nat) (src out : Node) : Prop :=
  out.name = src.name ∧
    List.Forall₂ (TrackContentEq srcBuffer outBuffer) src.tracks out.tracks

def GroupContentEq (srcBuffer outBuffer : List Nat) (src out : Group) : Prop :=
  out.group_type = src.group_type ∧
    List.Forall₂ (NodeContentEq srcBuffer outBuffer) src.nodes out.nodes

/-- The three format variants. -/
inductive VariantTag
  | v12
  | v20
  | v21
deriving DecidableEq, Repr

def Anim.variantTag : Anim → VariantTag
  | .V12 => .v12
  | .V20 _ _ _ _ _ _ => .v20
  | .V21 _ _ _ _ _ _ _ => .v21

/-- The scalar metadata of a container: final-frame-index, the two vendor
fields, the name, and (for `V21`) the extra vendor blob.  (`V12` carries
none here since its fields are never read by the splicer.) -/
def Anim.scalarMeta : Anim → Nat × Nat × Nat × String × Option Nat
  | .V12 => (0, 0, 0, "", none)
  | .V20 final_frame_index unk1 unk2 name _ _ =>
    (final_frame_index, unk1, unk2, name, none)
  | .V21 final_frame_index unk1 unk2 name _ _ unk_data =>
    (final_frame_index, unk1, unk2, name, some unk_data)

end AnimSplice

namespace Validator

open AnimSplice (GroupType)

/-- `ssbh_data::anim_data::TrackValues` as observed by `validate_anim`:
the `Transform(values)` arm is matched explicitly and every other arm is
collapsed by the `_` patterns, so non-transform values are carried without
payload.  A transform sample (`ssbh_data` `Transform`, all-`f32` fields) is
opaque to the validator — it is only compared for equality and printed —
and is modelled as `Nat`. -/
inductive TrackValues
  | transform (values : List Nat)
  | nonTransform
deriving DecidableEq, Repr

/-- `ssbh_data::anim_data::TrackData`: only `values` is read by the
validator. -/
structure TrackData where
  values : TrackValues
deriving DecidableEq, Repr

/-- `ssbh_data::anim_data::NodeData`. -/
structure NodeData where
  name : String
  tracks : List TrackData
deriving DecidableEq, Repr

/-- `ssbh_data::anim_data::GroupData`. -/
structure GroupData where
  group_type : GroupType
  nodes : List NodeData
deriving DecidableEq, Repr

/-- `ssbh_data::anim_data::AnimData`.  `final_frame_index` is an `f32`
compared only for equality and printed; opaque `Nat` here.  The version
fields are carried for completeness; `validate_anim` never reads them. -/
structure AnimData where
  major_version : Nat
  minor_version : Nat
  final_frame_index : Nat
  groups : List GroupData
deriving DecidableEq, Repr

/-- `SafetyRating` from the validator.  `notSafe` is the source's
`Unsafe(String)` (renamed, `Unsafe` being unusable as a Lean name). -/
inductive SafetyRating
  | safe
  | notSafe (msg : String)
  | warning (msg : String)
deriving DecidableEq, Repr

/-- `get_group_by_type`: first group of the requested category. -/
def get_group_by_type (anim : AnimData) (t : GroupType) : Option GroupData :=
  anim.groups.find? (fun g => decide (g.group_type = t))

/-- `mod_nodes_by_name`: the `HashMap` collected from `(name, node)` pairs
in iteration order, so a duplicated name keeps the *last* node.  Searching
the reversed list first-match reproduces that. -/
def nodeLookup (nodes : List NodeData) (name : String) : Option NodeData :=
  nodes.reverse.find? (fun n => decide (n.name = name))

/-- First frame index at which the two value sequences differ, with both
values — the source's `zip(..).enumerate()` scan. -/
def firstMismatch : Nat → List Nat → List Nat → Option (Nat × Nat × Nat)
  | _, [], _ => none
  | _, _, [] => none
  | i, r :: rs, m :: ms =>
    if r ≠ m then some (i, r, m) else firstMismatch (i + 1) rs ms

def msgMissingNode (name : String) : String :=
  "Modified anim missing transform node `" ++ name ++ "`"

def msgMissingTrack (name : String) : String :=
  "The modified anim is missing the Transform Track for Node `" ++ name ++ "`"

def msgMistyped (name : String) : String :=
  "The modified anim is poorly formatted and has vis or mat data instead of transform data for Node `"
    ++ name ++ "`"

def msgLenMismatch (name : String) (refLen modLen : Nat) : String :=
  "The Node `" ++ name ++ "` has different amount of values in the vanilla vs the modified! Vanilla=`"
    ++ toString refLen ++ "`, Modified=`" ++ toString modLen ++ "`"

def msgValueDiff (name : String) (frame refVal modVal : Nat) : String :=
  "The Node `" ++ name ++ "` at frame `" ++ toString frame
    ++ "` has differing values! Vanilla=`" ++ toString refVal
    ++ "`, Modified=`" ++ toString modVal ++ "`"

def msgFrameMismatch (modFfi refFfi : Nat) : String :=
  "The modifed anim has a final_frame_index of `" ++ toString modFfi
    ++ "`, while the matching vanilla anim has a final_frame_index of `"
    ++ toString refFfi ++ "`"

def msgRefOpen (e : String) : String :=
  "Reference anim could not be opened by ssbh_data, error=`" ++ e ++ "`"

def msgModOpen (e : String) : String :=
  "Modified anim could not be opened by ssbh_data, error=`" ++ e ++ "`"

def msgRefNoTransform : String :=
  "The reference anim has a transform group, but the modified group has no transform group!"

def msgModExtraTransform : String :=
  "The modified anim has transform data, but the vanilla anim had none! As long as you\x27re 100% sure you didn\x27t mess with any vanilla hitbox/hurtbox bones, this can still be ok."

/-- The per-reference-node loop of `validate_anim`, translated clause by
clause: reference track 0 absent or mistyped → `continue` (the source also
logs); candidate node missing → `Unsafe`; candidate track 0 absent or
mistyped → `Unsafe`; length mismatch → `Unsafe`; first differing frame →
`Unsafe`; list exhausted → `Safe`. -/
def validateNodes (lookup : String → Option NodeData) : List NodeData → SafetyRating
  | [] => .safe
  | reference_node :: rest =>
    match reference_node.tracks.get? 0 with
    | none => validateNodes lookup rest
    | some track =>
      match track.values with
      | .nonTransform => validateNodes lookup rest
      | .transform reference_values =>
        match lookup reference_node.name with
        | none => .notSafe (msgMissingNode reference_node.name)
        | some modified_node =>
          match modified_node.tracks.get? 0 with
          | none => .notSafe (msgMissingTrack modified_node.name)
          | some mtrack =>
            match mtrack.values with
            | .nonTransform => .notSafe (msgMistyped modified_node.name)
            | .transform modified_values =>
              if reference_values.length ≠ modified_values.length then
                .notSafe (msgLenMismatch modified_node.name
                  reference_values.length modified_values.length)
              else
                match firstMismatch 0 reference_values modified_values with
                | some (i, r, m) =>
                  .notSafe (msgValueDiff modified_node.name i r m)
                | none => validateNodes lookup rest

/-- `validate_anim` on the two decode results (the `from_file` calls are
the external codec; their `match` arms are the first two blocks of the
function).  Then: final-frame-index equality, transform-group presence,
and the per-node loop. -/
def validate_anim (reference : Except String AnimData)
    (modified : Except String AnimData) : SafetyRating :=
  match reference with
  | .error e => .warning (msgRefOpen e)
  | .ok reference_anim =>
    match modified with
    | .error e => .warning (msgModOpen e)
    | .ok modified_anim =>
      if reference_anim.final_frame_index ≠ modified_anim.final_frame_index then
        .notSafe (msgFrameMismatch modified_anim.final_frame_index
          reference_anim.final_frame_index)
      else
        match get_group_by_type reference_anim GroupType.Transform,
            get_group_by_type modified_anim GroupType.Transform with
        | some ref_trans_group, some mod_trans_group =>
          validateNodes (nodeLookup mod_trans_group.nodes) ref_trans_group.nodes
        | some _, none => .notSafe msgRefNoTransform
        | none, some _ => .warning msgModExtraTransform
        | none, none => .safe

/-- Modelled from the spec: the decodable Transform-typed value sequence
of a bone node — present when its only track exists and carries
Transform-typed values, absent (an upstream data defect on the reference
side, a failure on the candidate side) otherwise. -/
def boneValues (n : NodeData) : Option (List Nat) :=
  match n.tracks.get? 0 with
  | none => none
  | some tr =>
    match tr.values with
    | .transform vs => some vs
    | .nonTransform => none

/-- Modelled from the spec: the first frame index at which two
equally-indexed samples differ, phrased as a search over frame indices. -/
def firstDiffIndex (rs ms : List Nat) : Option Nat :=
  (List.range (min rs.length ms.length)).find? (fun i => decide (rs.getD i 0 ≠ ms.getD i 0))

/-- Modelled from the spec (§4.3 check 4): for every Node in the reference
Transform group, in order — a reference bone with no decodable
Transform-typed sequence is skipped; a missing candidate node of the same
name is `Unsafe`; a candidate without a decodable Transform-typed
sequence is `Unsafe`; a length mismatch is `Unsafe` reporting both
lengths; the first differing frame index is `Unsafe` naming the bone,
frame and both values; full equality of all bones is `Safe`. -/
def perBoneSpec (candidate : String → Option NodeData) : List NodeData → SafetyRating
  | [] => .safe
  | bone :: rest =>
    match boneValues bone with
    | none => perBoneSpec candidate rest
    | some refVals =>
      match candidate bone.name with
      | none => .notSafe (msgMissingNode bone.name)
      | some cand =>
        match cand.tracks.get? 0 with
        | none => .notSafe (msgMissingTrack cand.name)
        | some ctr =>
          match ctr.values with
          | .nonTransform => .notSafe (msgMistyped cand.name)
          | .transform cVals =>
            if refVals.length ≠ cVals.length then
              .notSafe (msgLenMismatch cand.name refVals.length cVals.length)
            else
              match firstDiffIndex refVals cVals with
              | some i => .notSafe (msgValueDiff cand.name i (refVals.getD i 0) (cVals.getD i 0))
              | none => perBoneSpec candidate rest

end Validator

open AnimSplice Validator

/-- C7 (confirmed): when either input container decodes to the legacy
`V12` variant, `splice_anim` fails with the error for the legacy side —
the reference is reported when it is legacy, otherwise the modified side
is — before any merging and without producing a container. -/
theorem c7_unsupported_version_rejection (r m : Anim)
    (h : r = Anim.V12 ∨ m = Anim.V12) :
    ∃ e, splice_anim r m = SpliceResult.error e ∧
      ((e = SpliceError.v12Reference ∧ r = Anim.V12) ∨
        (e = SpliceError.v12Modified ∧ m = Anim.V12)) := by
  cases r with
  | V12 => exact ⟨.v12Reference, rfl, Or.inl ⟨rfl, rfl⟩⟩
  | V20 a b c d gs buf =>
    cases m with
    | V12 => exact ⟨.v12Modified, rfl, Or.inr ⟨rfl, rfl⟩⟩
    | V20 a' b' c' d' gs' buf' => rcases h with h | h <;> simp at h
    | V21 a' b' c' d' gs' buf' u' => rcases h with h | h <;> simp at h
  | V21 a b c d gs buf u =>
    cases m with
    | V12 => exact ⟨.v12Modified, rfl, Or.inr ⟨rfl, rfl⟩⟩
    | V20 a' b' c' d' gs' buf' => rcases h with h | h <;> simp at h
    | V21 a' b' c' d' gs' buf' u' => rcases h with h | h <;> simp at h

/-- C7 witness: a legacy reference against a modern modified container is
rejected with the reference-side error. -/
theorem c7_unsupported_version_rejection_witness :
    (Anim.V12 = Anim.V12 ∨ Anim.V20 0 0 0 "" [] [] = Anim.V12) ∧
      (∃ e, splice_anim Anim.V12 (Anim.V20 0 0 0 "" [] []) = SpliceResult.error e ∧
        ((e = SpliceError.v12Reference ∧ Anim.V12 = Anim.V12) ∨
          (e = SpliceError.v12Modified ∧ Anim.V20 0 0 0 "" [] [] = Anim.V12))) :=
  ⟨Or.inl rfl,
    c7_unsupported_version_rejection Anim.V12 (Anim.V20 0 0 0 "" [] []) (Or.inl rfl)⟩

/-- C3 (code_bug): on a reference container with a Transform node holding
zero tracks, and on one whose track addresses bytes beyond the buffer,
`splice_anim` panics (out-of-bounds index / slice) instead of returning
a `MalformedSource`-style error value: the source has no such error and
indexes `tracks.elements[0]` and slices the buffer unchecked. -/
theorem c3_malformed_source_panics :
    splice_anim
        (Anim.V20 0 0 0 "" [⟨GroupType.Transform, [⟨"A", []⟩]⟩] [])
        (Anim.V20 0 0 0 "" [] []) = SpliceResult.crash ∧
      splice_anim
        (Anim.V20 0 0 0 "" [⟨GroupType.Transform, [⟨"A", [⟨"", 0, 0, 0, 0, 5⟩]⟩]⟩] [1, 2])
        (Anim.V20 0 0 0 "" [] []) = SpliceResult.crash :=
  ⟨rfl, rfl⟩

/-- C2 (code_bug): the Visibility/Material fallback branch does not copy
the reference group's payload.  With a reference holding Transform bone
`A` (payload byte 7) and a Visibility node also named `A` (payload byte
9), and a modified container with no Visibility group, the output's
Visibility track addresses byte 7 — the Transform bone's payload — not
byte 9; and when the Visibility node's name is not a Transform bone name
at all (`V`), the splice panics on the map `unwrap`. -/
theorem c2_fallback_branch_broken :
    splice_anim
        (Anim.V20 0 0 0 ""
          [⟨GroupType.Transform, [⟨"A", [⟨"", 0, 0, 0, 0, 1⟩]⟩]⟩,
            ⟨GroupType.Visibility, [⟨"A", [⟨"", 0, 0, 0, 1, 1⟩]⟩]⟩] [7, 9])
        (Anim.V20 0 0 0 "" [] [])
      = SpliceResult.ok
          (Anim.V20 0 0 0 ""
            [⟨GroupType.Transform, [⟨"A", [⟨"", 0, 0, 0, 0, 1⟩]⟩]⟩,
              ⟨GroupType.Visibility, [⟨"A", [⟨"", 0, 0, 0, 1, 1⟩]⟩]⟩] [7, 7]) ∧
      regionBytes [7, 7] 1 1 = [7] ∧ regionBytes [7, 9] 1 1 = [9] ∧
      ([7] : List Nat) ≠ [9] ∧
      splice_anim
        (Anim.V20 0 0 0 ""
          [⟨GroupType.Transform, [⟨"A", [⟨"", 0, 0, 0, 0, 1⟩]⟩]⟩,
            ⟨GroupType.Visibility, [⟨"V", [⟨"", 0, 0, 0, 1, 1⟩]⟩]⟩] [7, 9])
        (Anim.V20 0 0 0 "" [] []) = SpliceResult.crash :=
  ⟨rfl, rfl, rfl, by decide, rfl⟩

/-- C4 (code_bug): a reference Transform node with two tracks of unequal
sizes yields an output whose buffer holds 4 bytes while the track sizes
sum to 3 — the packing postcondition fails because the copy loop appends
the node-level map entry (track 0's 2 bytes) for the 1-byte second track
as well. -/
theorem c4_packing_invariant_violated :
    splice_anim
        (Anim.V20 0 0 0 ""
          [⟨GroupType.Transform,
            [⟨"A", [⟨"", 0, 0, 0, 0, 2⟩, ⟨"", 0, 0, 0, 2, 1⟩]⟩]⟩] [5, 6, 9])
        (Anim.V20 0 0 0 "" [] [])
      = SpliceResult.ok
          (Anim.V20 0 0 0 ""
            [⟨GroupType.Transform,
              [⟨"A", [⟨"", 0, 0, 0, 0, 2⟩, ⟨"", 0, 0, 0, 2, 1⟩]⟩]⟩] [5, 6, 5, 6]) ∧
      sumTrackSizes (allTracks
        [⟨GroupType.Transform,
          [⟨"A", [⟨"", 0, 0, 0, 0, 2⟩, ⟨"", 0, 0, 0, 2, 1⟩]⟩]⟩]) = 3 ∧
      ([5, 6, 5, 6] : List Nat).length = 4 ∧ (4 : Nat) ≠ 3 :=
  ⟨rfl, rfl, rfl, by decide⟩

/-- C1 counterexample: with the two-track reference node `A` above, the
only node named `A` in the output Transform group addresses payload bytes
`[5, 6, 5]` while the reference node's payload bytes are `[5, 6, 9]` —
the output contains no node of that name with the reference's bytes. -/
theorem c1_counterexample :
    splice_anim
        (Anim.V20 0 0 0 ""
          [⟨GroupType.Transform,
            [⟨"A", [⟨"", 0, 0, 0, 0, 2⟩, ⟨"", 0, 0, 0, 2, 1⟩]⟩]⟩] [5, 6, 9])
        (Anim.V20 0 0 0 "" [] [])
      = SpliceResult.ok
          (Anim.V20 0 0 0 ""
            [⟨GroupType.Transform,
              [⟨"A", [⟨"", 0, 0, 0, 0, 2⟩, ⟨"", 0, 0, 0, 2, 1⟩]⟩]⟩] [5, 6, 5, 6]) ∧
      nodePayloadBytes [5, 6, 5, 6] ⟨"A", [⟨"", 0, 0, 0, 0, 2⟩, ⟨"", 0, 0, 0, 2, 1⟩]⟩
        = [5, 6, 5] ∧
      nodePayloadBytes [5, 6, 9] ⟨"A", [⟨"", 0, 0, 0, 0, 2⟩, ⟨"", 0, 0, 0, 2, 1⟩]⟩
        = [5, 6, 9] ∧
      ([5, 6, 5] : List Nat) ≠ [5, 6, 9] :=
  ⟨rfl, rfl, rfl, by decide⟩

/-- C8 counterexample: a supported-variant container with a zero-track
Transform node makes `splice_anim` of the container with itself panic
rather than succeed. -/
theorem c8_counterexample :
    splice_anim (Anim.V20 0 0 0 "" [⟨GroupType.Transform, [⟨"A", []⟩]⟩] [])
        (Anim.V20 0 0 0 "" [⟨GroupType.Transform, [⟨"A", []⟩]⟩] [])
      = SpliceResult.crash := rfl

/-- C5 counterexample: a reference that fails to decode (as a legacy
variant does under the external codec) against a fine candidate yields
`Warning`, not the claimed `Unsafe`; and a decoded pair whose reference
carries legacy version numbers sails through with `Safe` — the validator
performs no variant check of its own. -/
theorem c5_counterexample :
    validate_anim (Except.error "ssbh error") (Except.ok ⟨2, 0, 0, []⟩)
        = SafetyRating.warning (msgRefOpen "ssbh error") ∧
      validate_anim (Except.ok ⟨1, 2, 0, []⟩) (Except.ok ⟨2, 0, 0, []⟩)
        = SafetyRating.safe :=
  ⟨rfl, rfl⟩

/-- C5 (corrected): the variant check is not asymmetric — a failed decode
on either side (which is how a legacy variant surfaces, decoding being the
external codec's job) yields `Warning`, the reference side included;
`validate_anim` never produces an `Unsafe` version mismatch. -/
theorem c5_decode_failure_is_warning (e : String) (m : Except String AnimData)
    (r : AnimData) :
    validate_anim (Except.error e) m = SafetyRating.warning (msgRefOpen e) ∧
      validate_anim (Except.ok r) (Except.error e)
        = SafetyRating.warning (msgModOpen e) :=
  ⟨rfl, rfl⟩

theorem spliceGroups_components (rg : List Group) (rb : List Nat) (mg : List Group)
    (mb : List Nat) (gsOut : List Group) (bufOut : List Nat)
    (h : spliceGroups rg rb mg mb = some (gsOut, bufOut)) :
    ∃ refData st1 tN1 st2 tN2 st3 mGs st4 fGs,
      gatherReference rg rb = some refData ∧
      refTransformPhase refData.nameToBuffer ⟨0, []⟩ rg = some (st1, tN1) ∧
      newBonesPhase refData.nodeNames mb st1 mg = some (st2, tN2) ∧
      modGroupsPhase mb st2 mg = some (st3, mGs) ∧
      fallbackPhase refData.nameToBuffer (mg.map (fun g => g.group_type)) st3 rg
        = some (st4, fGs) ∧
      gsOut = ⟨GroupType.Transform, tN1 ++ tN2⟩ :: (mGs ++ fGs) ∧
      bufOut = st4.new_buffer := by
  unfold spliceGroups at h
  split at h
  · exact absurd h (by simp)
  next refData hg =>
    split at h
    · exact absurd h (by simp)
    next st1 tN1 h1 =>
      split at h
      · exact absurd h (by simp)
      next st2 tN2 h2 =>
        split at h
        · exact absurd h (by simp)
        next st3 mGs h3 =>
          split at h
          · exact absurd h (by simp)
          next st4 fGs h4 =>
            simp only [Option.some.injEq, Prod.mk.injEq] at h
            obtain ⟨hgs, hbuf⟩ := h
            exact ⟨refData, st1, tN1, st2, tN2, st3, mGs, st4, fGs, hg, h1, h2, h3,
              h4, hgs.symm, hbuf.symm⟩

theorem splice_ok_components (r m out : Anim)
    (hok : splice_anim r m = SpliceResult.ok out) :
    ∃ refData st1 tN1 st2 tN2 st3 mGs st4 fGs,
      gatherReference r.animGroups r.animBuffer = some refData ∧
      refTransformPhase refData.nameToBuffer ⟨0, []⟩ r.animGroups = some (st1, tN1) ∧
      newBonesPhase refData.nodeNames m.animBuffer st1 m.animGroups = some (st2, tN2) ∧
      modGroupsPhase m.animBuffer st2 m.animGroups = some (st3, mGs) ∧
      fallbackPhase refData.nameToBuffer (m.animGroups.map (fun g => g.group_type))
        st3 r.animGroups = some (st4, fGs) ∧
      out.animGroups = ⟨GroupType.Transform, tN1 ++ tN2⟩ :: (mGs ++ fGs) ∧
      out.animBuffer = st4.new_buffer ∧
      out.variantTag = r.variantTag ∧ out.scalarMeta = r.scalarMeta := by
  cases r with
  | V12 => simp [splice_anim] at hok
  | V20 a b c d gs buf =>
    cases m with
    | V12 => simp [splice_anim] at hok
    | V20 a' b' c' d' gs' buf' =>
      simp only [splice_anim] at hok
      cases hsg : spliceGroups (Anim.V20 a b c d gs buf).animGroups
          (Anim.V20 a b c d gs buf).animBuffer
          (Anim.V20 a' b' c' d' gs' buf').animGroups
          (Anim.V20 a' b' c' d' gs' buf').animBuffer with
      | none => rw [hsg] at hok; simp at hok
      | some p =>
        obtain ⟨gsOut, bufOut⟩ := p
        rw [hsg] at hok
        simp only [SpliceResult.ok.injEq] at hok
        obtain ⟨refData, st1, tN1, st2, tN2, st3, mGs, st4, fGs, hg, h1, h2, h3, h4,
          hgs, hbuf⟩ := spliceGroups_components _ _ _ _ _ _ hsg
        subst hok
        exact ⟨refData, st1, tN1, st2, tN2, st3, mGs, st4, fGs, hg, h1, h2, h3, h4,
          hgs ▸ rfl, hbuf ▸ rfl, rfl, rfl⟩
    | V21 a' b' c' d' gs' buf' u' =>
      simp only [splice_anim] at hok
      cases hsg : spliceGroups (Anim.V20 a b c d gs buf).animGroups
          (Anim.V20 a b c d gs buf).animBuffer
          (Anim.V21 a' b' c' d' gs' buf' u').animGroups
          (Anim.V21 a' b' c' d' gs' buf' u').animBuffer with
      | none => rw [hsg] at hok; simp at hok
      | some p =>
        obtain ⟨gsOut, bufOut⟩ := p
        rw [hsg] at hok
        simp only [SpliceResult.ok.injEq] at hok
        obtain ⟨refData, st1, tN1, st2, tN2, st3, mGs, st4, fGs, hg, h1, h2, h3, h4,
          hgs, hbuf⟩ := spliceGroups_components _ _ _ _ _ _ hsg
        subst hok
        exact ⟨refData, st1, tN1, st2, tN2, st3, mGs, st4, fGs, hg, h1, h2, h3, h4,
          hgs ▸ rfl, hbuf ▸ rfl, rfl, rfl⟩
  | V21 a b c d gs buf u =>
    cases m with
    | V12 => simp [splice_anim] at hok
    | V20 a' b' c' d' gs' buf' =>
      simp only [splice_anim] at hok
      cases hsg : spliceGroups (Anim.V21 a b c d gs buf u).animGroups
          (Anim.V21 a b c d gs buf u).animBuffer
          (Anim.V20 a' b' c' d' gs' buf').animGroups
          (Anim.V20 a' b' c' d' gs' buf').animBuffer with
      | none => rw [hsg] at hok; simp at hok
      | some p =>
        obtain ⟨gsOut, bufOut⟩ := p
        rw [hsg] at hok
        simp only [SpliceResult.ok.injEq] at hok
        obtain ⟨refData, st1, tN1, st2, tN2, st3, mGs, st4, fGs, hg, h1, h2, h3, h4,
          hgs, hbuf⟩ := spliceGroups_components _ _ _ _ _ _ hsg
        subst hok
        exact ⟨refData, st1, tN1, st2, tN2, st3, mGs, st4, fGs, hg, h1, h2, h3, h4,
          hgs ▸ rfl, hbuf ▸ rfl, rfl, rfl⟩
    | V21 a' b' c' d' gs' buf' u' =>
      simp only [splice_anim] at hok
      cases hsg : spliceGroups (Anim.V21 a b c d gs buf u).animGroups
          (Anim.V21 a b c d gs buf u).animBuffer
          (Anim.V21 a' b' c' d' gs' buf' u').animGroups
          (Anim.V21 a' b' c' d' gs' buf' u').animBuffer with
      | none => rw [hsg] at hok; simp at hok
      | some p =>
        obtain ⟨gsOut, bufOut⟩ := p
        rw [hsg] at hok
        simp only [SpliceResult.ok.injEq] at hok
        obtain ⟨refData, st1, tN1, st2, tN2, st3, mGs, st4, fGs, hg, h1, h2, h3, h4,
          hgs, hbuf⟩ := spliceGroups_components _ _ _ _ _ _ hsg
        subst hok
        exact ⟨refData, st1, tN1, st2, tN2, st3, mGs, st4, fGs, hg, h1, h2, h3, h4,
          hgs ▸ rfl, hbuf ▸ rfl, rfl, rfl⟩

/-- C9 (confirmed): a successful splice copies the reference container's
variant and every scalar metadata field (final-frame-index, the vendor
fields, the name, the `V21` blob); only the group list and buffer are
new.  In particular the output takes the reference's variant even when the
modified container is of the other modern variant. -/
theorem c9_metadata_from_reference (r m out : Anim)
    (hok : splice_anim r m = SpliceResult.ok out) :
    out.variantTag = r.variantTag ∧ out.scalarMeta = r.scalarMeta := by
  obtain ⟨_, _, _, _, _, _, _, _, _, _, _, _, _, _, _, _, hv, hs⟩ :=
    splice_ok_components r m out hok
  exact ⟨hv, hs⟩

/-- C9 witness: a `V20` reference with distinct metadata spliced against a
`V21` modified container keeps the reference's variant and metadata. -/
theorem c9_metadata_from_reference_witness :
    splice_anim (Anim.V20 3 1 2 "ref" [⟨GroupType.Transform, [⟨"A", [⟨"t", 0, 5, 0, 0, 2⟩]⟩]⟩] [4, 5])
        (Anim.V21 9 8 7 "mod" [] [] 6)
      = SpliceResult.ok (Anim.V20 3 1 2 "ref"
          [⟨GroupType.Transform, [⟨"A", [⟨"t", 0, 5, 0, 0, 2⟩]⟩]⟩] [4, 5]) ∧
      ((Anim.V20 3 1 2 "ref" [⟨GroupType.Transform, [⟨"A", [⟨"t", 0, 5, 0, 0, 2⟩]⟩]⟩] [4, 5]).variantTag
          = (Anim.V20 3 1 2 "ref" [⟨GroupType.Transform, [⟨"A", [⟨"t", 0, 5, 0, 0, 2⟩]⟩]⟩] [4, 5]).variantTag ∧
        (Anim.V20 3 1 2 "ref" [⟨GroupType.Transform, [⟨"A", [⟨"t", 0, 5, 0, 0, 2⟩]⟩]⟩] [4, 5]).scalarMeta
          = (Anim.V20 3 1 2 "ref" [⟨GroupType.Transform, [⟨"A", [⟨"t", 0, 5, 0, 0, 2⟩]⟩]⟩] [4, 5]).scalarMeta) :=
  ⟨rfl,
    c9_metadata_from_reference
      (Anim.V20 3 1 2 "ref" [⟨GroupType.Transform, [⟨"A", [⟨"t", 0, 5, 0, 0, 2⟩]⟩]⟩] [4, 5])
      (Anim.V21 9 8 7 "mod" [] [] 6)
      (Anim.V20 3 1 2 "ref" [⟨GroupType.Transform, [⟨"A", [⟨"t", 0, 5, 0, 0, 2⟩]⟩]⟩] [4, 5])
      rfl⟩

theorem modGroupsPhase_no_transform (mb : List Nat) :
    ∀ (groups : List Group) (st st' : BuildState) (gs : List Group),
      modGroupsPhase mb st groups = some (st', gs) →
      ∀ g' ∈ gs, g'.group_type ≠ GroupType.Transform := by
  intro groups
  induction groups with
  | nil =>
    intro st st' gs h g' hg'
    simp only [modGroupsPhase, Option.some.injEq, Prod.mk.injEq] at h
    rw [← h.2] at hg'
    simp at hg'
  | cons g rest ih =>
    intro st st' gs h g' hg'
    unfold modGroupsPhase at h
    split at h
    · exact ih st st' gs h g' hg'
    next hne =>
      split at h
      · exact absurd h (by simp)
      next stx ns hstep =>
        split at h
        · exact absurd h (by simp)
        next st'' gs' hrec =>
          simp only [Option.some.injEq, Prod.mk.injEq] at h
          rw [← h.2] at hg'
          rcases List.mem_cons.mp hg' with hh | hh
          · rw [hh]; exact hne
          · exact ih stx st'' gs' hrec g' hh

theorem fallbackPhase_no_transform (refMap : List (String × List Nat))
    (modTypes : List GroupType) :
    ∀ (groups : List Group) (st st' : BuildState) (gs : List Group),
      fallbackPhase refMap modTypes st groups = some (st', gs) →
      ∀ g' ∈ gs, g'.group_type ≠ GroupType.Transform := by
  intro groups
  induction groups with
  | nil =>
    intro st st' gs h g' hg'
    simp only [fallbackPhase, Option.some.injEq, Prod.mk.injEq] at h
    rw [← h.2] at hg'
    simp at hg'
  | cons g rest ih =>
    intro st st' gs h g' hg'
    unfold fallbackPhase at h
    split at h
    · exact ih st st' gs h g' hg'
    next hne =>
      split at h
      · exact ih st st' gs h g' hg'
      next hmem =>
        split at h
        · exact absurd h (by simp)
        next stx ns hstep =>
          split at h
          · exact absurd h (by simp)
          next st'' gs' hrec =>
            simp only [Option.some.injEq, Prod.mk.injEq] at h
            rw [← h.2] at hg'
            rcases List.mem_cons.mp hg' with hh | hh
            · rw [hh]; exact hne
            · exact ih stx st'' gs' hrec g' hh

theorem refTransformPhase_no_transform_groups (refMap : List (String × List Nat)) :
    ∀ (groups : List Group) (st : BuildState),
      (∀ g ∈ groups, g.group_type ≠ GroupType.Transform) →
      refTransformPhase refMap st groups = some (st, []) := by
  intro groups
  induction groups with
  | nil => intro st _; rfl
  | cons g rest ih =>
    intro st h
    unfold refTransformPhase
    rw [if_neg (h g (List.mem_cons_self g rest))]
    exact ih st (fun g' hg' => h g' (List.mem_cons_of_mem g hg'))

theorem newBonesPhase_no_transform_groups (refNames : List String) (mb : List Nat) :
    ∀ (groups : List Group) (st : BuildState),
      (∀ g ∈ groups, g.group_type ≠ GroupType.Transform) →
      newBonesPhase refNames mb st groups = some (st, []) := by
  intro groups
  induction groups with
  | nil => intro st _; rfl
  | cons g rest ih =>
    intro st h
    unfold newBonesPhase
    rw [if_neg (h g (List.mem_cons_self g rest))]
    exact ih st (fun g' hg' => h g' (List.mem_cons_of_mem g hg'))

/-- C10 (confirmed): every successful splice output starts with a
Transform group, no other output group is a Transform group, and when
neither input container has a Transform group the leading Transform group
is present but empty. -/
theorem c10_single_leading_transform_group (r m out : Anim)
    (hok : splice_anim r m = SpliceResult.ok out) :
    ∃ g rest, out.animGroups = g :: rest ∧ g.group_type = GroupType.Transform ∧
      (∀ g' ∈ rest, g'.group_type ≠ GroupType.Transform) ∧
      ((∀ gr ∈ r.animGroups, gr.group_type ≠ GroupType.Transform) →
        (∀ gm ∈ m.animGroups, gm.group_type ≠ GroupType.Transform) →
        g.nodes = []) := by
  obtain ⟨refData, st1, tN1, st2, tN2, st3, mGs, st4, fGs, hg, h1, h2, h3, h4, hgs,
    hbuf, _, _⟩ := splice_ok_components r m out hok
  refine ⟨⟨GroupType.Transform, tN1 ++ tN2⟩, mGs ++ fGs, hgs, rfl, ?_, ?_⟩
  · intro g' hg'
    rcases List.mem_append.mp hg' with hh | hh
    · exact modGroupsPhase_no_transform m.animBuffer m.animGroups st2 st3 mGs h3 g' hh
    · exact fallbackPhase_no_transform refData.nameToBuffer
        (m.animGroups.map (fun g => g.group_type)) r.animGroups st3 st4 fGs h4 g' hh
  · intro hr hm
    have e1 := refTransformPhase_no_transform_groups refData.nameToBuffer
      r.animGroups ⟨0, []⟩ hr
    rw [h1] at e1
    simp only [Option.some.injEq, Prod.mk.injEq] at e1
    have e2 := newBonesPhase_no_transform_groups refData.nodeNames m.animBuffer
      m.animGroups st1 hm
    rw [h2] at e2
    simp only [Option.some.injEq, Prod.mk.injEq] at e2
    show tN1 ++ tN2 = []
    rw [e1.2, e2.2]
    rfl

/-- C10 witness: splicing two containers with no groups at all yields a
container holding exactly one, empty, leading Transform group. -/
theorem c10_single_leading_transform_group_witness :
    splice_anim (Anim.V20 0 0 0 "" [] []) (Anim.V20 0 0 0 "" [] [])
      = SpliceResult.ok (Anim.V20 0 0 0 "" [⟨GroupType.Transform, []⟩] []) ∧
      (∃ g rest,
        (Anim.V20 0 0 0 "" [⟨GroupType.Transform, []⟩] []).animGroups = g :: rest ∧
        g.group_type = GroupType.Transform ∧
        (∀ g' ∈ rest, g'.group_type ≠ GroupType.Transform) ∧
        ((∀ gr ∈ (Anim.V20 0 0 0 "" [] [] : Anim).animGroups,
            gr.group_type ≠ GroupType.Transform) →
          (∀ gm ∈ (Anim.V20 0 0 0 "" [] [] : Anim).animGroups,
            gm.group_type ≠ GroupType.Transform) →
          g.nodes = [])) :=
  ⟨rfl,
    c10_single_leading_transform_group (Anim.V20 0 0 0 "" [] [])
      (Anim.V20 0 0 0 "" [] []) (Anim.V20 0 0 0 "" [⟨GroupType.Transform, []⟩] []) rfl⟩

theorem u32cast_eq (n : Nat) (h : n < 4294967296) : u32cast n = n :=
  Nat.mod_eq_of_lt h

theorem sliceRange_eq (buffer : List Nat) (off size : Nat)
    (h : off + size ≤ buffer.length) :
    sliceRange buffer off (off + size) = some (regionBytes buffer off size) := by
  unfold sliceRange regionBytes
  rw [if_pos ⟨Nat.le_add_right off size, h⟩, Nat.add_sub_cancel_left off size]

theorem regionBytes_length (buffer : List Nat) (off size : Nat)
    (h : off + size ≤ buffer.length) : (regionBytes buffer off size).length = size := by
  unfold regionBytes
  rw [List.length_take, List.length_drop]
  omega

theorem regionBytes_append (pre payload ext : List Nat) (size : Nat)
    (hlen : payload.length = size) :
    regionBytes (pre ++ (payload ++ ext)) pre.length size = payload := by
  unfold regionBytes
  rw [List.drop_left, List.take_left' hlen]

@[simp] theorem sumTrackSizes_nil : sumTrackSizes [] = 0 := rfl

@[simp] theorem sumTrackSizes_cons (t : TrackV2) (ts : List TrackV2) :
    sumTrackSizes (t :: ts) = t.data_size + sumTrackSizes ts := by
  simp [sumTrackSizes]

@[simp] theorem sumNodeSizes_nil : sumNodeSizes [] = 0 := rfl

@[simp] theorem sumNodeSizes_cons (n : Node) (ns : List Node) :
    sumNodeSizes (n :: ns) = sumTrackSizes n.tracks + sumNodeSizes ns := by
  simp [sumNodeSizes]

theorem sumNodeSizes_append (a b : List Node) :
    sumNodeSizes (a ++ b) = sumNodeSizes a + sumNodeSizes b := by
  simp [sumNodeSizes]

@[simp] theorem sumGroupListSizes_nil : sumGroupListSizes [] = 0 := rfl

@[simp] theorem sumGroupListSizes_cons (g : Group) (gs : List Group) :
    sumGroupListSizes (g :: gs) = sumNodeSizes g.nodes + sumGroupListSizes gs := by
  simp [sumGroupListSizes]

theorem transformNodes_cons_pos (g : Group) (rest : List Group)
    (h : g.group_type = GroupType.Transform) :
    transformNodes (g :: rest) = g.nodes ++ transformNodes rest := by
  simp [transformNodes, h]

theorem transformNodes_cons_neg (g : Group) (rest : List Group)
    (h : ¬g.group_type = GroupType.Transform) :
    transformNodes (g :: rest) = transformNodes rest := by
  simp [transformNodes, h]

theorem nonTransformGroups_cons_pos (g : Group) (rest : List Group)
    (h : g.group_type = GroupType.Transform) :
    nonTransformGroups (g :: rest) = nonTransformGroups rest := by
  simp [nonTransformGroups, h]

theorem nonTransformGroups_cons_neg (g : Group) (rest : List Group)
    (h : ¬g.group_type = GroupType.Transform) :
    nonTransformGroups (g :: rest) = g :: nonTransformGroups rest := by
  simp [nonTransformGroups, h]

theorem mem_transformNodes (groups : List Group) (n : Node)
    (hn : n ∈ transformNodes groups) :
    ∃ g ∈ groups, g.group_type = GroupType.Transform ∧ n ∈ g.nodes := by
  induction groups with
  | nil => cases hn
  | cons g rest ih =>
    by_cases hT : g.group_type = GroupType.Transform
    · rw [transformNodes_cons_pos g rest hT] at hn
      rcases List.mem_append.mp hn with h | h
      · exact ⟨g, List.mem_cons_self g rest, hT, h⟩
      · obtain ⟨g', hg', ht', hn'⟩ := ih h
        exact ⟨g', List.mem_cons_of_mem g hg', ht', hn'⟩
    · rw [transformNodes_cons_neg g rest hT] at hn
      obtain ⟨g', hg', ht', hn'⟩ := ih hn
      exact ⟨g', List.mem_cons_of_mem g hg', ht', hn'⟩

theorem mem_nonTransformGroups (groups : List Group) (g : Group)
    (hg : g ∈ nonTransformGroups groups) : g ∈ groups := by
  induction groups with
  | nil => cases hg
  | cons g' rest ih =>
    by_cases hT : g'.group_type = GroupType.Transform
    · rw [nonTransformGroups_cons_pos g' rest hT] at hg
      exact List.mem_cons_of_mem g' (ih hg)
    · rw [nonTransformGroups_cons_neg g' rest hT] at hg
      rcases List.mem_cons.mp hg with h | h
      · exact h ▸ List.mem_cons_self g' rest
      · exact List.mem_cons_of_mem g' (ih h)

theorem lookupAssoc_of_nodup :
    ∀ (l : List (String × List Nat)), (l.map Prod.fst).Nodup →
      ∀ k v, (k, v) ∈ l → lookupAssoc l k = some v := by
  intro l
  induction l with
  | nil => intro _ k v hm; cases hm
  | cons p rest ih =>
    intro hnd k v hm
    obtain ⟨pk, pv⟩ := p
    simp only [List.map_cons, List.nodup_cons] at hnd
    rcases List.mem_cons.mp hm with h | h
    · obtain ⟨hk, hv⟩ := Prod.mk.injEq .. |>.mp h
      unfold lookupAssoc
      rw [if_pos hk.symm]
      rw [hv]
    · unfold lookupAssoc
      rw [if_neg (fun he => hnd.1 (by rw [he]; exact List.mem_map_of_mem Prod.fst h))]
      exact ih hnd.2 k v h

theorem forall₂_mem_left {α β : Type} {R : α → β → Prop} :
    ∀ {l : List α} {l' : List β}, List.Forall₂ R l l' →
      ∀ a ∈ l, ∃ b ∈ l', R a b := by
  intro l l' h
  induction h with
  | nil => intro a ha; cases ha
  | cons hr _ ih =>
    intro a ha
    rcases List.mem_cons.mp ha with h1 | h1
    · exact ⟨_, List.mem_cons_self _ _, h1 ▸ hr⟩
    · obtain ⟨b, hb, hrb⟩ := ih a h1
      exact ⟨b, List.mem_cons_of_mem _ hb, hrb⟩

theorem forall₂_append {α β : Type} {R : α → β → Prop} :
    ∀ {l₁ l₃ : List α} {l₂ l₄ : List β}, List.Forall₂ R l₁ l₂ →
      List.Forall₂ R l₃ l₄ → List.Forall₂ R (l₁ ++ l₃) (l₂ ++ l₄) := by
  intro l₁ l₃ l₂ l₄ h1 h2
  induction h1 with
  | nil => exact h2
  | cons hr _ ih => exact List.Forall₂.cons hr ih

theorem trackRebuilt_mono (st st' : BuildState) (srcBuffer : List Nat) (e : List Nat)
    (hbuf : st'.new_buffer = st.new_buffer ++ e) (t t' : TrackV2)
    (h : trackRebuilt st srcBuffer t t') : trackRebuilt st' srcBuffer t t' := by
  obtain ⟨hoff, hbytes⟩ := h
  refine ⟨hoff, fun ext => ?_⟩
  rw [hbuf, List.append_assoc]
  exact hbytes (e ++ ext)

theorem nodeRebuilt_mono (st st' : BuildState) (P : Node → List Nat) (e : List Nat)
    (hbuf : st'.new_buffer = st.new_buffer ++ e) (n n' : Node)
    (h : nodeRebuilt st P n n') : nodeRebuilt st' P n n' := by
  obtain ⟨hname, t, off, ht, ht', hbytes⟩ := h
  refine ⟨hname, t, off, ht, ht', fun ext => ?_⟩
  rw [hbuf, List.append_assoc]
  exact hbytes (e ++ ext)

theorem nodeSliceRebuilt_mono (st st' : BuildState) (srcBuffer : List Nat)
    (e : List Nat) (hbuf : st'.new_buffer = st.new_buffer ++ e) (n n' : Node)
    (h : nodeSliceRebuilt st srcBuffer n n') : nodeSliceRebuilt st' srcBuffer n n' :=
  ⟨h.1, h.2.imp (fun a b ht => trackRebuilt_mono st st' srcBuffer e hbuf a b ht)⟩

theorem groupSliceRebuilt_mono (st st' : BuildState) (srcBuffer : List Nat)
    (e : List Nat) (hbuf : st'.new_buffer = st.new_buffer ++ e) (g g' : Group)
    (h : groupSliceRebuilt st srcBuffer g g') : groupSliceRebuilt st' srcBuffer g g' :=
  ⟨h.1, h.2.imp (fun a b hn => nodeSliceRebuilt_mono st st' srcBuffer e hbuf a b hn)⟩

theorem gatherNodes_eq (buffer : List Nat) :
    ∀ (nodes : List Node) (acc : RefData),
      (∀ n ∈ nodes, ∃ t, n.tracks.get? 0 = some t ∧
        t.data_offset + t.data_size ≤ buffer.length) →
      gatherNodes buffer acc nodes =
        some { nameToBuffer :=
                 (nodes.map (fun n => (n.name, headTrackBytes buffer n))).reverse
                   ++ acc.nameToBuffer,
               nodeNames := acc.nodeNames ++ nodes.map (fun n => n.name) } := by
  intro nodes
  induction nodes with
  | nil => intro acc _; simp [gatherNodes]
  | cons n rest ih =>
    intro acc h
    obtain ⟨t, ht, hb⟩ := h n (List.mem_cons_self n rest)
    unfold gatherNodes
    rw [ht]
    dsimp only
    rw [sliceRange_eq buffer t.data_offset t.data_size hb]
    dsimp only
    rw [ih _ (fun n' hn' => h n' (List.mem_cons_of_mem n hn'))]
    have hh : headTrackBytes buffer n = regionBytes buffer t.data_offset t.data_size := by
      unfold headTrackBytes
      rw [ht]
      rfl
    simp [hh, List.append_assoc]

theorem gatherGroups_eq (buffer : List Nat) :
    ∀ (groups : List Group) (acc : RefData),
      (∀ n ∈ transformNodes groups, ∃ t, n.tracks.get? 0 = some t ∧
        t.data_offset + t.data_size ≤ buffer.length) →
      gatherGroups buffer acc groups =
        some { nameToBuffer :=
                 ((transformNodes groups).map
                     (fun n => (n.name, headTrackBytes buffer n))).reverse
                   ++ acc.nameToBuffer,
               nodeNames := acc.nodeNames
                 ++ (transformNodes groups).map (fun n => n.name) } := by
  intro groups
  induction groups with
  | nil => intro acc _; simp [gatherGroups, transformNodes]
  | cons g rest ih =>
    intro acc h
    by_cases hT : g.group_type = GroupType.Transform
    · unfold gatherGroups
      rw [if_pos hT]
      rw [gatherNodes_eq buffer g.nodes acc (fun n hn =>
        h n (transformNodes_cons_pos g rest hT ▸ List.mem_append_left _ hn))]
      dsimp only
      rw [ih _ (fun n hn =>
        h n (transformNodes_cons_pos g rest hT ▸ List.mem_append_right _ hn))]
      rw [transformNodes_cons_pos g rest hT]
      simp [List.append_assoc]
    · unfold gatherGroups
      rw [if_neg hT]
      rw [ih acc (fun n hn => h n (transformNodes_cons_neg g rest hT ▸ hn))]
      rw [transformNodes_cons_neg g rest hT]

theorem gatherReference_eq (groups : List Group) (buffer : List Nat)
    (h : ∀ n ∈ transformNodes groups, ∃ t, n.tracks.get? 0 = some t ∧
      t.data_offset + t.data_size ≤ buffer.length) :
    gatherReference groups buffer =
      some { nameToBuffer :=
               ((transformNodes groups).map
                   (fun n => (n.name, headTrackBytes buffer n))).reverse,
             nodeNames := (transformNodes groups).map (fun n => n.name) } := by
  unfold gatherReference
  rw [gatherGroups_eq buffer groups _ h]
  simp

theorem gather_lookup (buffer : List Nat) (groups : List Group)
    (hnd : ((transformNodes groups).map (fun n => n.name)).Nodup)
    (n : Node) (hn : n ∈ transformNodes groups) :
    lookupAssoc (((transformNodes groups).map
        (fun n => (n.name, headTrackBytes buffer n))).reverse) n.name
      = some (headTrackBytes buffer n) := by
  apply lookupAssoc_of_nodup
  · rw [List.map_reverse, List.nodup_reverse, List.map_map]
    exact hnd
  · rw [List.mem_reverse]
    exact List.mem_map_of_mem (fun n => (n.name, headTrackBytes buffer n)) hn

theorem stepAll_extends {α β : Type} (f : BuildState → α → Option (BuildState × β))
    (hf : ∀ st a st' b, f st a = some (st', b) →
      ∃ e, st'.new_buffer = st.new_buffer ++ e) :
    ∀ (l : List α) (st st' : BuildState) (bs : List β),
      stepAll f st l = some (st', bs) →
      ∃ e, st'.new_buffer = st.new_buffer ++ e := by
  intro l
  induction l with
  | nil =>
    intro st st' bs h
    simp only [stepAll, Option.some.injEq, Prod.mk.injEq] at h
    exact ⟨[], by rw [← h.1]; simp⟩
  | cons a rest ih =>
    intro st st' bs h
    unfold stepAll at h
    split at h
    · exact absurd h (by simp)
    next st1 b hfa =>
      split at h
      · exact absurd h (by simp)
      next st2 bs' hrest =>
        simp only [Option.some.injEq, Prod.mk.injEq] at h
        obtain ⟨e1, he1⟩ := hf st a st1 b hfa
        obtain ⟨e2, he2⟩ := ih st1 st2 bs' hrest
        exact ⟨e1 ++ e2, by rw [← h.1, he2, he1, List.append_assoc]⟩

theorem copyTrackFromMap_extends (refMap : List (String × List Nat)) (name : String)
    (st : BuildState) (t : TrackV2) (st' : BuildState) (t' : TrackV2)
    (h : copyTrackFromMap refMap name st t = some (st', t')) :
    ∃ e, st'.new_buffer = st.new_buffer ++ e := by
  unfold copyTrackFromMap at h
  split at h
  · exact absurd h (by simp)
  next payload hp =>
    simp only [Option.some.injEq, Prod.mk.injEq] at h
    exact ⟨payload, by rw [← h.1]⟩

theorem copyTrackFromBuffer_extends (buffer : List Nat)
    (st : BuildState) (t : TrackV2) (st' : BuildState) (t' : TrackV2)
    (h : copyTrackFromBuffer buffer st t = some (st', t')) :
    ∃ e, st'.new_buffer = st.new_buffer ++ e := by
  unfold copyTrackFromBuffer at h
  split at h
  · exact absurd h (by simp)
  next payload hp =>
    simp only [Option.some.injEq, Prod.mk.injEq] at h
    exact ⟨payload, by rw [← h.1]⟩

theorem copyNodeFromMap_extends (refMap : List (String × List Nat))
    (st : BuildState) (n : Node) (st' : BuildState) (n' : Node)
    (h : copyNodeFromMap refMap st n = some (st', n')) :
    ∃ e, st'.new_buffer = st.new_buffer ++ e := by
  unfold copyNodeFromMap at h
  split at h
  · exact absurd h (by simp)
  next st2 ts hstep =>
    simp only [Option.some.injEq, Prod.mk.injEq] at h
    exact h.1 ▸ stepAll_extends _ (copyTrackFromMap_extends refMap n.name)
      n.tracks st st2 ts hstep

theorem copyNodeFromBuffer_extends (buffer : List Nat)
    (st : BuildState) (n : Node) (st' : BuildState) (n' : Node)
    (h : copyNodeFromBuffer buffer st n = some (st', n')) :
    ∃ e, st'.new_buffer = st.new_buffer ++ e := by
  unfold copyNodeFromBuffer at h
  split at h
  · exact absurd h (by simp)
  next st2 ts hstep =>
    simp only [Option.some.injEq, Prod.mk.injEq] at h
    exact h.1 ▸ stepAll_extends _ (copyTrackFromBuffer_extends buffer)
      n.tracks st st2 ts hstep

theorem refTransformPhase_extends (refMap : List (String × List Nat)) :
    ∀ (groups : List Group) (st st' : BuildState) (ns : List Node),
      refTransformPhase refMap st groups = some (st', ns) →
      ∃ e, st'.new_buffer = st.new_buffer ++ e := by
  intro groups
  induction groups with
  | nil =>
    intro st st' ns h
    simp only [refTransformPhase, Option.some.injEq, Prod.mk.injEq] at h
    exact ⟨[], by rw [← h.1]; simp⟩
  | cons g rest ih =>
    intro st st' ns h
    unfold refTransformPhase at h
    split at h
    · split at h
      · exact absurd h (by simp)
      next st1 ns1 hstep =>
        split at h
        · exact absurd h (by simp)
        next st2 ns2 hrec =>
          simp only [Option.some.injEq, Prod.mk.injEq] at h
          obtain ⟨e1, he1⟩ := stepAll_extends _ (copyNodeFromMap_extends refMap)
            g.nodes st st1 ns1 hstep
          obtain ⟨e2, he2⟩ := ih st1 st2 ns2 hrec
          exact ⟨e1 ++ e2, by rw [← h.1, he2, he1, List.append_assoc]⟩
    · exact ih st st' ns h

theorem newBonesPhase_extends (refNames : List String) (mb : List Nat) :
    ∀ (groups : List Group) (st st' : BuildState) (ns : List Node),
      newBonesPhase refNames mb st groups = some (st', ns) →
      ∃ e, st'.new_buffer = st.new_buffer ++ e := by
  intro groups
  induction groups with
  | nil =>
    intro st st' ns h
    simp only [newBonesPhase, Option.some.injEq, Prod.mk.injEq] at h
    exact ⟨[], by rw [← h.1]; simp⟩
  | cons g rest ih =>
    intro st st' ns h
    unfold newBonesPhase at h
    split at h
    · split at h
      · exact absurd h (by simp)
      next st1 ns1 hstep =>
        split at h
        · exact absurd h (by simp)
        next st2 ns2 hrec =>
          simp only [Option.some.injEq, Prod.mk.injEq] at h
          obtain ⟨e1, he1⟩ := stepAll_extends _ (copyNodeFromBuffer_extends mb)
            _ st st1 ns1 hstep
          obtain ⟨e2, he2⟩ := ih st1 st2 ns2 hrec
          exact ⟨e1 ++ e2, by rw [← h.1, he2, he1, List.append_assoc]⟩
    · exact ih st st' ns h

theorem modGroupsPhase_extends (mb : List Nat) :
    ∀ (groups : List Group) (st st' : BuildState) (gs : List Group),
      modGroupsPhase mb st groups = some (st', gs) →
      ∃ e, st'.new_buffer = st.new_buffer ++ e := by
  intro groups
  induction groups with
  | nil =>
    intro st st' gs h
    simp only [modGroupsPhase, Option.some.injEq, Prod.mk.injEq] at h
    exact ⟨[], by rw [← h.1]; simp⟩
  | cons g rest ih =>
    intro st st' gs h
    unfold modGroupsPhase at h
    split at h
    · exact ih st st' gs h
    next hne =>
      split at h
      · exact absurd h (by simp)
      next st1 ns1 hstep =>
        split at h
        · exact absurd h (by simp)
        next st2 gs2 hrec =>
          simp only [Option.some.injEq, Prod.mk.injEq] at h
          obtain ⟨e1, he1⟩ := stepAll_extends _ (copyNodeFromBuffer_extends mb)
            g.nodes st st1 ns1 hstep
          obtain ⟨e2, he2⟩ := ih st1 st2 gs2 hrec
          exact ⟨e1 ++ e2, by rw [← h.1, he2, he1, List.append_assoc]⟩

theorem fallbackPhase_extends (refMap : List (String × List Nat))
    (modTypes : List GroupType) :
    ∀ (groups : List Group) (st st' : BuildState) (gs : List Group),
      fallbackPhase refMap modTypes st groups = some (st', gs) →
      ∃ e, st'.new_buffer = st.new_buffer ++ e := by
  intro groups
  induction groups with
  | nil =>
    intro st st' gs h
    simp only [fallbackPhase, Option.some.injEq, Prod.mk.injEq] at h
    exact ⟨[], by rw [← h.1]; simp⟩
  | cons g rest ih =>
    intro st st' gs h
    unfold fallbackPhase at h
    split at h
    · exact ih st st' gs h
    next hne =>
      split at h
      · exact ih st st' gs h
      next hmem =>
        split at h
        · exact absurd h (by simp)
        next st1 ns1 hstep =>
          split at h
          · exact absurd h (by simp)
          next st2 gs2 hrec =>
            simp only [Option.some.injEq, Prod.mk.injEq] at h
            obtain ⟨e1, he1⟩ := stepAll_extends _ (copyNodeFromMap_extends refMap)
              g.nodes st st1 ns1 hstep
            obtain ⟨e2, he2⟩ := ih st1 st2 gs2 hrec
            exact ⟨e1 ++ e2, by rw [← h.1, he2, he1, List.append_assoc]⟩

theorem stepAll_copyNodeFromMap_spec (refMap : List (String × List Nat))
    (P : Node → List Nat) :
    ∀ (nodes : List Node) (st : BuildState), Aligned st →
      st.current_offset + sumNodeSizes nodes < 4294967296 →
      (∀ n ∈ nodes, ∃ t, n.tracks = [t] ∧ lookupAssoc refMap n.name = some (P n) ∧
        (P n).length = t.data_size) →
      ∃ st' out, stepAll (copyNodeFromMap refMap) st nodes = some (st', out) ∧
        Aligned st' ∧
        st'.current_offset = st.current_offset + sumNodeSizes nodes ∧
        (∃ e, st'.new_buffer = st.new_buffer ++ e) ∧
        List.Forall₂ (nodeRebuilt st' P) nodes out := by
  intro nodes
  induction nodes with
  | nil =>
    intro st ha _ _
    exact ⟨st, [], rfl, ha, by simp, ⟨[], by simp⟩, List.Forall₂.nil⟩
  | cons n rest ih =>
    intro st ha hcap h
    obtain ⟨t, ht, hl, hlen⟩ := h n (List.mem_cons_self n rest)
    have hs : sumTrackSizes n.tracks = t.data_size := by
      rw [ht, sumTrackSizes_cons, sumTrackSizes_nil]
      omega
    rw [sumNodeSizes_cons, hs] at hcap
    have hofflt : st.current_offset < 4294967296 := by omega
    have hstep : copyNodeFromMap refMap st n =
        some ({ current_offset := st.current_offset + t.data_size,
                new_buffer := st.new_buffer ++ P n },
              { name := n.name,
                tracks := [{ t with data_offset := st.current_offset }] }) := by
      unfold copyNodeFromMap
      rw [ht]
      simp only [stepAll, copyTrackFromMap, hl, u32cast_eq st.current_offset hofflt]
    have ha1 : Aligned { current_offset := st.current_offset + t.data_size,
                         new_buffer := st.new_buffer ++ P n } := by
      unfold Aligned at ha ⊢
      rw [List.length_append, ← ha, hlen]
    obtain ⟨st', out, hrec, ha', hoff', ⟨e, he⟩, hfa⟩ :=
      ih { current_offset := st.current_offset + t.data_size,
           new_buffer := st.new_buffer ++ P n } ha1 (by dsimp only; omega)
        (fun n' hn' => h n' (List.mem_cons_of_mem n hn'))
    refine ⟨st', ⟨n.name, [{ t with data_offset := st.current_offset }]⟩ :: out,
      ?_, ha', ?_, ?_, ?_⟩
    · unfold stepAll
      rw [hstep]
      dsimp only
      rw [hrec]
    · rw [hoff', sumNodeSizes_cons, hs]
      dsimp only
      omega
    · refine ⟨P n ++ e, ?_⟩
      rw [he]
      dsimp only
      rw [List.append_assoc]
    · refine List.Forall₂.cons ⟨rfl, t, st.current_offset, ht, rfl, fun ext => ?_⟩ hfa
      rw [he]
      unfold trackBytes
      dsimp only
      rw [ha, List.append_assoc, List.append_assoc]
      exact regionBytes_append st.new_buffer (P n) (e ++ ext) t.data_size hlen

theorem refTransformPhase_spec (refMap : List (String × List Nat))
    (P : Node → List Nat) :
    ∀ (groups : List Group) (st : BuildState), Aligned st →
      st.current_offset + sumNodeSizes (transformNodes groups) < 4294967296 →
      (∀ n ∈ transformNodes groups, ∃ t, n.tracks = [t] ∧
        lookupAssoc refMap n.name = some (P n) ∧ (P n).length = t.data_size) →
      ∃ st' out, refTransformPhase refMap st groups = some (st', out) ∧
        Aligned st' ∧
        st'.current_offset = st.current_offset + sumNodeSizes (transformNodes groups) ∧
        (∃ e, st'.new_buffer = st.new_buffer ++ e) ∧
        List.Forall₂ (nodeRebuilt st' P) (transformNodes groups) out := by
  intro groups
  induction groups with
  | nil =>
    intro st ha _ _
    exact ⟨st, [], rfl, ha, by simp [transformNodes], ⟨[], by simp⟩,
      by simp [transformNodes]⟩
  | cons g rest ih =>
    intro st ha hcap h
    by_cases hT : g.group_type = GroupType.Transform
    · rw [transformNodes_cons_pos g rest hT] at hcap h ⊢
      rw [sumNodeSizes_append] at hcap
      obtain ⟨stA, outA, hstepA, haA, hoffA, ⟨eA, heA⟩, hfaA⟩ :=
        stepAll_copyNodeFromMap_spec refMap P g.nodes st ha (by omega)
          (fun n hn => h n (List.mem_append_left _ hn))
      obtain ⟨st', outB, hstepB, ha', hoffB, ⟨eB, heB⟩, hfaB⟩ :=
        ih stA haA (by omega) (fun n hn => h n (List.mem_append_right _ hn))
      refine ⟨st', outA ++ outB, ?_, ha', ?_, ?_, ?_⟩
      · unfold refTransformPhase
        rw [if_pos hT, hstepA]
        dsimp only
        rw [hstepB]
      · rw [hoffB, hoffA, sumNodeSizes_append]
        omega
      · exact ⟨eA ++ eB, by rw [heB, heA, List.append_assoc]⟩
      · refine forall₂_append ?_ hfaB
        exact hfaA.imp (fun a b hr => nodeRebuilt_mono stA st' P eB heB a b hr)
    · rw [transformNodes_cons_neg g rest hT] at hcap h ⊢
      obtain ⟨st', out, hstep, ha', hoff, hext, hfa⟩ := ih st ha hcap h
      refine ⟨st', out, ?_, ha', hoff, hext, hfa⟩
      unfold refTransformPhase
      rw [if_neg hT]
      exact hstep

theorem stepAll_copyTrackFromBuffer_spec (buffer : List Nat) :
    ∀ (tracks : List TrackV2) (st : BuildState), Aligned st →
      st.current_offset + sumTrackSizes tracks < 4294967296 →
      (∀ t ∈ tracks, t.data_offset + t.data_size ≤ buffer.length) →
      ∃ st' out, stepAll (copyTrackFromBuffer buffer) st tracks = some (st', out) ∧
        Aligned st' ∧
        st'.current_offset = st.current_offset + sumTrackSizes tracks ∧
        (∃ e, st'.new_buffer = st.new_buffer ++ e) ∧
        List.Forall₂ (trackRebuilt st' buffer) tracks out := by
  intro tracks
  induction tracks with
  | nil =>
    intro st ha _ _
    exact ⟨st, [], rfl, ha, by simp, ⟨[], by simp⟩, List.Forall₂.nil⟩
  | cons t rest ih =>
    intro st ha hcap h
    have hb := h t (List.mem_cons_self t rest)
    rw [sumTrackSizes_cons] at hcap
    have hofflt : st.current_offset < 4294967296 := by omega
    have hlen := regionBytes_length buffer t.data_offset t.data_size hb
    have hstep : copyTrackFromBuffer buffer st t =
        some ({ current_offset := st.current_offset + t.data_size,
                new_buffer := st.new_buffer
                  ++ regionBytes buffer t.data_offset t.data_size },
              { t with data_offset := st.current_offset }) := by
      unfold copyTrackFromBuffer
      rw [sliceRange_eq buffer t.data_offset t.data_size hb]
      dsimp only
      rw [u32cast_eq st.current_offset hofflt]
    have ha1 : Aligned { current_offset := st.current_offset + t.data_size,
                         new_buffer := st.new_buffer
                           ++ regionBytes buffer t.data_offset t.data_size } := by
      unfold Aligned at ha ⊢
      rw [List.length_append, ← ha, hlen]
    obtain ⟨st', out, hrec, ha', hoff', ⟨e, he⟩, hfa⟩ :=
      ih { current_offset := st.current_offset + t.data_size,
           new_buffer := st.new_buffer ++ regionBytes buffer t.data_offset t.data_size }
        ha1 (by dsimp only; omega) (fun t' ht' => h t' (List.mem_cons_of_mem t ht'))
    refine ⟨st', { t with data_offset := st.current_offset } :: out, ?_, ha', ?_, ?_, ?_⟩
    · unfold stepAll
      rw [hstep]
      dsimp only
      rw [hrec]
    · rw [hoff', sumTrackSizes_cons]
      dsimp only
      omega
    · refine ⟨regionBytes buffer t.data_offset t.data_size ++ e, ?_⟩
      rw [he]
      dsimp only
      rw [List.append_assoc]
    · refine List.Forall₂.cons ⟨⟨st.current_offset, rfl⟩, fun ext => ?_⟩ hfa
      rw [he]
      unfold trackBytes
      dsimp only
      rw [ha, List.append_assoc, List.append_assoc]
      exact regionBytes_append st.new_buffer _ (e ++ ext) t.data_size hlen

theorem stepAll_copyNodeFromBuffer_spec (buffer : List Nat) :
    ∀ (nodes : List Node) (st : BuildState), Aligned st →
      st.current_offset + sumNodeSizes nodes < 4294967296 →
      (∀ n ∈ nodes, ∀ t ∈ n.tracks, t.data_offset + t.data_size ≤ buffer.length) →
      ∃ st' out, stepAll (copyNodeFromBuffer buffer) st nodes = some (st', out) ∧
        Aligned st' ∧
        st'.current_offset = st.current_offset + sumNodeSizes nodes ∧
        (∃ e, st'.new_buffer = st.new_buffer ++ e) ∧
        List.Forall₂ (nodeSliceRebuilt st' buffer) nodes out := by
  intro nodes
  induction nodes with
  | nil =>
    intro st ha _ _
    exact ⟨st, [], rfl, ha, by simp, ⟨[], by simp⟩, List.Forall₂.nil⟩
  | cons n rest ih =>
    intro st ha hcap h
    rw [sumNodeSizes_cons] at hcap
    obtain ⟨stA, ts', hS0, haA, hoffA, ⟨eA, heA⟩, hfaA⟩ :=
      stepAll_copyTrackFromBuffer_spec buffer n.tracks st ha (by omega)
        (h n (List.mem_cons_self n rest))
    have hstep : copyNodeFromBuffer buffer st n = some (stA, ⟨n.name, ts'⟩) := by
      unfold copyNodeFromBuffer
      rw [hS0]
    obtain ⟨st', out, hrec, ha', hoff', ⟨e, he⟩, hfa⟩ :=
      ih stA haA (by omega) (fun n' hn' => h n' (List.mem_cons_of_mem n hn'))
    refine ⟨st', ⟨n.name, ts'⟩ :: out, ?_, ha', ?_, ?_, ?_⟩
    · unfold stepAll
      rw [hstep]
      dsimp only
      rw [hrec]
    · rw [hoff', hoffA, sumNodeSizes_cons]
      omega
    · exact ⟨eA ++ e, by rw [he, heA, List.append_assoc]⟩
    · refine List.Forall₂.cons ⟨rfl, ?_⟩ hfa
      exact hfaA.imp (fun a b hr => trackRebuilt_mono stA st' buffer e he a b hr)

theorem modGroupsPhase_spec (buffer : List Nat) :
    ∀ (groups : List Group) (st : BuildState), Aligned st →
      st.current_offset + sumGroupListSizes (nonTransformGroups groups) < 4294967296 →
      (∀ g ∈ nonTransformGroups groups, ∀ n ∈ g.nodes, ∀ t ∈ n.tracks,
        t.data_offset + t.data_size ≤ buffer.length) →
      ∃ st' out, modGroupsPhase buffer st groups = some (st', out) ∧
        Aligned st' ∧
        st'.current_offset
          = st.current_offset + sumGroupListSizes (nonTransformGroups groups) ∧
        (∃ e, st'.new_buffer = st.new_buffer ++ e) ∧
        List.Forall₂ (groupSliceRebuilt st' buffer) (nonTransformGroups groups) out := by
  intro groups
  induction groups with
  | nil =>
    intro st ha _ _
    exact ⟨st, [], rfl, ha, by simp [nonTransformGroups], ⟨[], by simp⟩,
      by simp [nonTransformGroups]⟩
  | cons g rest ih =>
    intro st ha hcap h
    by_cases hT : g.group_type = GroupType.Transform
    · rw [nonTransformGroups_cons_pos g rest hT] at hcap h ⊢
      obtain ⟨st', out, hstep, ha', hoff, hext, hfa⟩ := ih st ha hcap h
      refine ⟨st', out, ?_, ha', hoff, hext, hfa⟩
      unfold modGroupsPhase
      rw [if_pos hT]
      exact hstep
    · rw [nonTransformGroups_cons_neg g rest hT] at hcap h ⊢
      rw [sumGroupListSizes_cons] at hcap
      obtain ⟨stA, ns', hS1, haA, hoffA, ⟨eA, heA⟩, hfaA⟩ :=
        stepAll_copyNodeFromBuffer_spec buffer g.nodes st ha (by omega)
          (h g (List.mem_cons_self g _))
      obtain ⟨st', out, hrec, ha', hoff', ⟨e, he⟩, hfa⟩ :=
        ih stA haA (by omega) (fun g' hg' n hn t ht =>
          h g' (List.mem_cons_of_mem g hg') n hn t ht)
      refine ⟨st', ⟨g.group_type, ns'⟩ :: out, ?_, ha', ?_, ?_, ?_⟩
      · unfold modGroupsPhase
        rw [if_neg hT, hS1]
        dsimp only
        rw [hrec]
      · rw [hoff', hoffA, sumGroupListSizes_cons]
        omega
      · exact ⟨eA ++ e, by rw [he, heA, List.append_assoc]⟩
      · refine List.Forall₂.cons ⟨rfl, ?_⟩ hfa
        exact hfaA.imp (fun a b hr => nodeSliceRebuilt_mono stA st' buffer e he a b hr)

theorem newBonesPhase_all_known (refNames : List String) (mb : List Nat) :
    ∀ (groups : List Group) (st : BuildState),
      (∀ n ∈ transformNodes groups, n.name ∈ refNames) →
      newBonesPhase refNames mb st groups = some (st, []) := by
  intro groups
  induction groups with
  | nil => intro st _; rfl
  | cons g rest ih =>
    intro st h
    by_cases hT : g.group_type = GroupType.Transform
    · unfold newBonesPhase
      rw [if_pos hT]
      have hfilter : g.nodes.filter (fun n => decide (n.name ∉ refNames)) = [] := by
        apply List.filter_eq_nil_iff.mpr
        intro n hn
        simp only [decide_eq_true_eq, Decidable.not_not]
        exact h n (transformNodes_cons_pos g rest hT ▸ List.mem_append_left _ hn)
      rw [hfilter]
      show (match stepAll (copyNodeFromBuffer mb) st [] with
        | none => none
        | some (st', ns) =>
          match newBonesPhase refNames mb st' rest with
          | none => none
          | some (st'', ns') => some (st'', ns ++ ns')) = some (st, [])
      rw [show stepAll (copyNodeFromBuffer mb) st [] = some (st, []) from rfl]
      dsimp only
      rw [ih st (fun n hn => h n (transformNodes_cons_pos g rest hT ▸
        List.mem_append_right _ hn))]
      rfl
    · unfold newBonesPhase
      rw [if_neg hT]
      exact ih st (fun n hn => h n (transformNodes_cons_neg g rest hT ▸ hn))

theorem fallbackPhase_all_known (refMap : List (String × List Nat))
    (modTypes : List GroupType) :
    ∀ (groups : List Group) (st : BuildState),
      (∀ g ∈ groups, g.group_type ∈ modTypes) →
      fallbackPhase refMap modTypes st groups = some (st, []) := by
  intro groups
  induction groups with
  | nil => intro st _; rfl
  | cons g rest ih =>
    intro st h
    by_cases hT : g.group_type = GroupType.Transform
    · unfold fallbackPhase
      rw [if_pos hT]
      exact ih st (fun g' hg' => h g' (List.mem_cons_of_mem g hg'))
    · unfold fallbackPhase
      rw [if_neg hT, if_pos (h g (List.mem_cons_self g rest))]
      exact ih st (fun g' hg' => h g' (List.mem_cons_of_mem g hg'))

theorem splice_anim_of_phases (r m : Anim) (hr : r ≠ Anim.V12) (hm : m ≠ Anim.V12)
    (refData : RefData) (st1 : BuildState) (tN1 : List Node) (st2 : BuildState)
    (tN2 : List Node) (st3 : BuildState) (mGs : List Group) (st4 : BuildState)
    (fGs : List Group)
    (hg : gatherReference r.animGroups r.animBuffer = some refData)
    (hp1 : refTransformPhase refData.nameToBuffer ⟨0, []⟩ r.animGroups
      = some (st1, tN1))
    (hp2 : newBonesPhase refData.nodeNames m.animBuffer st1 m.animGroups
      = some (st2, tN2))
    (hp3 : modGroupsPhase m.animBuffer st2 m.animGroups = some (st3, mGs))
    (hp4 : fallbackPhase refData.nameToBuffer
      (m.animGroups.map (fun g => g.group_type)) st3 r.animGroups = some (st4, fGs)) :
    ∃ out, splice_anim r m = SpliceResult.ok out ∧
      out.animGroups = ⟨GroupType.Transform, tN1 ++ tN2⟩ :: (mGs ++ fGs) ∧
      out.animBuffer = st4.new_buffer := by
  have hsg : spliceGroups r.animGroups r.animBuffer m.animGroups m.animBuffer
      = some (⟨GroupType.Transform, tN1 ++ tN2⟩ :: (mGs ++ fGs), st4.new_buffer) := by
    unfold spliceGroups
    rw [hg]
    dsimp only
    rw [hp1]
    dsimp only
    rw [hp2]
    dsimp only
    rw [hp3]
    dsimp only
    rw [hp4]
  cases r with
  | V12 => exact absurd rfl hr
  | V20 a b c d gs buf =>
    cases m with
    | V12 => exact absurd rfl hm
    | V20 a' b' c' d' gs' buf' =>
      refine ⟨Anim.V20 a b c d (⟨GroupType.Transform, tN1 ++ tN2⟩ :: (mGs ++ fGs))
        st4.new_buffer, ?_, rfl, rfl⟩
      simp only [splice_anim]
      rw [hsg]
    | V21 a' b' c' d' gs' buf' u' =>
      refine ⟨Anim.V20 a b c d (⟨GroupType.Transform, tN1 ++ tN2⟩ :: (mGs ++ fGs))
        st4.new_buffer, ?_, rfl, rfl⟩
      simp only [splice_anim]
      rw [hsg]
  | V21 a b c d gs buf u =>
    cases m with
    | V12 => exact absurd rfl hm
    | V20 a' b' c' d' gs' buf' =>
      refine ⟨Anim.V21 a b c d (⟨GroupType.Transform, tN1 ++ tN2⟩ :: (mGs ++ fGs))
        st4.new_buffer u, ?_, rfl, rfl⟩
      simp only [splice_anim]
      rw [hsg]
    | V21 a' b' c' d' gs' buf' u' =>
      refine ⟨Anim.V21 a b c d (⟨GroupType.Transform, tN1 ++ tN2⟩ :: (mGs ++ fGs))
        st4.new_buffer u, ?_, rfl, rfl⟩
      simp only [splice_anim]
      rw [hsg]

theorem trackRebuilt_to_contentEq (st' : BuildState) (src outBuf : List Nat)
    (hout : outBuf = st'.new_buffer) (t t' : TrackV2)
    (h : trackRebuilt st' src t t') : TrackContentEq src outBuf t t' := by
  obtain ⟨⟨off, rfl⟩, hbytes⟩ := h
  refine ⟨rfl, rfl, rfl, rfl, rfl, ?_⟩
  have hb := hbytes []
  rw [List.append_nil] at hb
  rw [hout]
  exact hb

theorem nodeSliceRebuilt_to_contentEq (st' : BuildState) (src outBuf : List Nat)
    (hout : outBuf = st'.new_buffer) (n n' : Node)
    (h : nodeSliceRebuilt st' src n n') : NodeContentEq src outBuf n n' :=
  ⟨h.1, h.2.imp (fun a b hr => trackRebuilt_to_contentEq st' src outBuf hout a b hr)⟩

theorem groupSliceRebuilt_to_contentEq (st' : BuildState) (src outBuf : List Nat)
    (hout : outBuf = st'.new_buffer) (g g' : Group)
    (h : groupSliceRebuilt st' src g g') : GroupContentEq src outBuf g g' :=
  ⟨h.1, h.2.imp (fun a b hr => nodeSliceRebuilt_to_contentEq st' src outBuf hout a b hr)⟩

theorem nodeRebuilt_to_contentEq (st1 : BuildState) (src outBuf E : List Nat)
    (hout : outBuf = st1.new_buffer ++ E) (n n' : Node)
    (h : nodeRebuilt st1 (headTrackBytes src) n n') : NodeContentEq src outBuf n n' := by
  obtain ⟨hname, t, off, ht, ht', hbytes⟩ := h
  refine ⟨hname, ?_⟩
  rw [ht, ht']
  refine List.Forall₂.cons ⟨rfl, rfl, rfl, rfl, rfl, ?_⟩ List.Forall₂.nil
  rw [hout]
  rw [hbytes E]
  unfold headTrackBytes
  rw [ht]
  rfl

/-- C8 (corrected): splicing a well-formed supported-variant container
with itself succeeds, and yields an output whose leading Transform group
holds the same nodes in the same order with byte-identical payload
content, and whose remaining groups are the input's Visibility/Material
groups with byte-identical content (offsets recomputed).  Well-formed
means: every Transform node has exactly one track and a unique name, all
track ranges lie inside the buffer, and the total payload stays below
`2^32`.  (`c8_counterexample` shows the unrestricted claim is false.) -/
theorem c8_self_splice (a : Anim)
    (hv : a ≠ Anim.V12)
    (h1 : ∀ n ∈ transformNodes a.animGroups, n.tracks.length = 1)
    (h2 : ((transformNodes a.animGroups).map (fun n => n.name)).Nodup)
    (h3 : ∀ g ∈ a.animGroups, ∀ n ∈ g.nodes, ∀ t ∈ n.tracks,
      t.data_offset + t.data_size ≤ a.animBuffer.length)
    (hcap : sumNodeSizes (transformNodes a.animGroups)
      + sumGroupListSizes (nonTransformGroups a.animGroups) < 4294967296) :
    ∃ out, splice_anim a a = SpliceResult.ok out ∧
      ∃ g rest, out.animGroups = g :: rest ∧ g.group_type = GroupType.Transform ∧
        List.Forall₂ (NodeContentEq a.animBuffer out.animBuffer)
          (transformNodes a.animGroups) g.nodes ∧
        List.Forall₂ (GroupContentEq a.animBuffer out.animBuffer)
          (nonTransformGroups a.animGroups) rest := by
  have htrack : ∀ n ∈ transformNodes a.animGroups, ∃ t, n.tracks = [t] := by
    intro n hn
    exact List.length_eq_one.mp (h1 n hn)
  have h3t : ∀ n ∈ transformNodes a.animGroups, ∀ t ∈ n.tracks,
      t.data_offset + t.data_size ≤ a.animBuffer.length := by
    intro n hn t ht
    obtain ⟨g, hg, _, hng⟩ := mem_transformNodes a.animGroups n hn
    exact h3 g hg n hng t ht
  have hgather := gatherReference_eq a.animGroups a.animBuffer (by
    intro n hn
    obtain ⟨t, ht⟩ := htrack n hn
    exact ⟨t, by rw [ht]; rfl, h3t n hn t (by rw [ht]; exact List.mem_cons_self t [])⟩)
  obtain ⟨st1, tN1, hp1, ha1, hoff1, ⟨eT, heT⟩, hfaT⟩ :=
    refTransformPhase_spec
      ((RefData.mk
        ((transformNodes a.animGroups).map
          (fun n => (n.name, headTrackBytes a.animBuffer n))).reverse
        ((transformNodes a.animGroups).map (fun n => n.name))).nameToBuffer)
      (headTrackBytes a.animBuffer) a.animGroups ⟨0, []⟩ rfl
      (by dsimp only; omega)
      (by
        intro n hn
        obtain ⟨t, ht⟩ := htrack n hn
        refine ⟨t, ht, ?_, ?_⟩
        · exact gather_lookup a.animBuffer a.animGroups h2 n hn
        · have hh : headTrackBytes a.animBuffer n
              = regionBytes a.animBuffer t.data_offset t.data_size := by
            unfold headTrackBytes
            rw [ht]
            rfl
          rw [hh]
          exact regionBytes_length a.animBuffer t.data_offset t.data_size
            (h3t n hn t (by rw [ht]; exact List.mem_cons_self t [])))
  have hp2 := newBonesPhase_all_known
    ((RefData.mk
      ((transformNodes a.animGroups).map
        (fun n => (n.name, headTrackBytes a.animBuffer n))).reverse
      ((transformNodes a.animGroups).map (fun n => n.name))).nodeNames)
    a.animBuffer a.animGroups st1
    (fun n hn => List.mem_map_of_mem (fun n => n.name) hn)
  obtain ⟨st3, mGs, hp3, ha3, hoff3, ⟨eM, heM⟩, hfaM⟩ :=
    modGroupsPhase_spec a.animBuffer a.animGroups st1 ha1
      (by rw [hoff1]; dsimp only; omega)
      (fun g hg n hn t ht => h3 g (mem_nonTransformGroups a.animGroups g hg) n hn t ht)
  have hp4 := fallbackPhase_all_known
    ((RefData.mk
      ((transformNodes a.animGroups).map
        (fun n => (n.name, headTrackBytes a.animBuffer n))).reverse
      ((transformNodes a.animGroups).map (fun n => n.name))).nameToBuffer)
    (a.animGroups.map (fun g => g.group_type)) a.animGroups st3
    (fun g hg => List.mem_map_of_mem (fun g => g.group_type) hg)
  obtain ⟨out, hok, hgs, hbuf⟩ :=
    splice_anim_of_phases a a hv hv
      (RefData.mk
        ((transformNodes a.animGroups).map
          (fun n => (n.name, headTrackBytes a.animBuffer n))).reverse
        ((transformNodes a.animGroups).map (fun n => n.name)))
      st1 tN1 st1 [] st3 mGs st3 [] hgather hp1 hp2 hp3 hp4
  have houtbuf : out.animBuffer = st1.new_buffer ++ eM := by
    rw [hbuf, heM]
  refine ⟨out, hok, ⟨GroupType.Transform, tN1 ++ []⟩, mGs ++ [], hgs, rfl, ?_, ?_⟩
  · show List.Forall₂ (NodeContentEq a.animBuffer out.animBuffer)
      (transformNodes a.animGroups) (tN1 ++ [])
    rw [List.append_nil]
    exact hfaT.imp (fun n n' hr =>
      nodeRebuilt_to_contentEq st1 a.animBuffer out.animBuffer eM houtbuf n n' hr)
  · show List.Forall₂ (GroupContentEq a.animBuffer out.animBuffer)
      (nonTransformGroups a.animGroups) (mGs ++ [])
    rw [List.append_nil]
    exact hfaM.imp (fun g g' hr =>
      groupSliceRebuilt_to_contentEq st3 a.animBuffer out.animBuffer hbuf g g' hr)

/-- C8 witness: a well-formed container with one Transform bone and one
Visibility node, spliced with itself. -/
theorem c8_self_splice_witness :
    ((Anim.V20 3 1 2 "a"
        [⟨GroupType.Transform, [⟨"A", [⟨"t", 0, 5, 0, 1, 2⟩]⟩]⟩,
          ⟨GroupType.Visibility, [⟨"V", [⟨"vt", 0, 0, 0, 0, 1⟩]⟩]⟩] [4, 5, 6]) ≠ Anim.V12 ∧
      (∀ n ∈ transformNodes (Anim.V20 3 1 2 "a"
          [⟨GroupType.Transform, [⟨"A", [⟨"t", 0, 5, 0, 1, 2⟩]⟩]⟩,
            ⟨GroupType.Visibility, [⟨"V", [⟨"vt", 0, 0, 0, 0, 1⟩]⟩]⟩] [4, 5, 6]).animGroups,
        n.tracks.length = 1) ∧
      ((transformNodes (Anim.V20 3 1 2 "a"
          [⟨GroupType.Transform, [⟨"A", [⟨"t", 0, 5, 0, 1, 2⟩]⟩]⟩,
            ⟨GroupType.Visibility, [⟨"V", [⟨"vt", 0, 0, 0, 0, 1⟩]⟩]⟩] [4, 5, 6]).animGroups).map
        (fun n => n.name)).Nodup ∧
      (∀ g ∈ (Anim.V20 3 1 2 "a"
          [⟨GroupType.Transform, [⟨"A", [⟨"t", 0, 5, 0, 1, 2⟩]⟩]⟩,
            ⟨GroupType.Visibility, [⟨"V", [⟨"vt", 0, 0, 0, 0, 1⟩]⟩]⟩] [4, 5, 6]).animGroups,
        ∀ n ∈ g.nodes, ∀ t ∈ n.tracks,
          t.data_offset + t.data_size ≤ (Anim.V20 3 1 2 "a"
            [⟨GroupType.Transform, [⟨"A", [⟨"t", 0, 5, 0, 1, 2⟩]⟩]⟩,
              ⟨GroupType.Visibility, [⟨"V", [⟨"vt", 0, 0, 0, 0, 1⟩]⟩]⟩] [4, 5, 6]).animBuffer.length) ∧
      sumNodeSizes (transformNodes (Anim.V20 3 1 2 "a"
          [⟨GroupType.Transform, [⟨"A", [⟨"t", 0, 5, 0, 1, 2⟩]⟩]⟩,
            ⟨GroupType.Visibility, [⟨"V", [⟨"vt", 0, 0, 0, 0, 1⟩]⟩]⟩] [4, 5, 6]).animGroups)
        + sumGroupListSizes (nonTransformGroups (Anim.V20 3 1 2 "a"
          [⟨GroupType.Transform, [⟨"A", [⟨"t", 0, 5, 0, 1, 2⟩]⟩]⟩,
            ⟨GroupType.Visibility, [⟨"V", [⟨"vt", 0, 0, 0, 0, 1⟩]⟩]⟩] [4, 5, 6]).animGroups)
        < 4294967296) ∧
      (∃ out, splice_anim
          (Anim.V20 3 1 2 "a"
            [⟨GroupType.Transform, [⟨"A", [⟨"t", 0, 5, 0, 1, 2⟩]⟩]⟩,
              ⟨GroupType.Visibility, [⟨"V", [⟨"vt", 0, 0, 0, 0, 1⟩]⟩]⟩] [4, 5, 6])
          (Anim.V20 3 1 2 "a"
            [⟨GroupType.Transform, [⟨"A", [⟨"t", 0, 5, 0, 1, 2⟩]⟩]⟩,
              ⟨GroupType.Visibility, [⟨"V", [⟨"vt", 0, 0, 0, 0, 1⟩]⟩]⟩] [4, 5, 6])
          = SpliceResult.ok out ∧
        ∃ g rest, out.animGroups = g :: rest ∧ g.group_type = GroupType.Transform ∧
          List.Forall₂ (NodeContentEq
            (Anim.V20 3 1 2 "a"
              [⟨GroupType.Transform, [⟨"A", [⟨"t", 0, 5, 0, 1, 2⟩]⟩]⟩,
                ⟨GroupType.Visibility, [⟨"V", [⟨"vt", 0, 0, 0, 0, 1⟩]⟩]⟩] [4, 5, 6]).animBuffer
            out.animBuffer)
            (transformNodes (Anim.V20 3 1 2 "a"
              [⟨GroupType.Transform, [⟨"A", [⟨"t", 0, 5, 0, 1, 2⟩]⟩]⟩,
                ⟨GroupType.Visibility, [⟨"V", [⟨"vt", 0, 0, 0, 0, 1⟩]⟩]⟩] [4, 5, 6]).animGroups)
            g.nodes ∧
          List.Forall₂ (GroupContentEq
            (Anim.V20 3 1 2 "a"
              [⟨GroupType.Transform, [⟨"A", [⟨"t", 0, 5, 0, 1, 2⟩]⟩]⟩,
                ⟨GroupType.Visibility, [⟨"V", [⟨"vt", 0, 0, 0, 0, 1⟩]⟩]⟩] [4, 5, 6]).animBuffer
            out.animBuffer)
            (nonTransformGroups (Anim.V20 3 1 2 "a"
              [⟨GroupType.Transform, [⟨"A", [⟨"t", 0, 5, 0, 1, 2⟩]⟩]⟩,
                ⟨GroupType.Visibility, [⟨"V", [⟨"vt", 0, 0, 0, 0, 1⟩]⟩]⟩] [4, 5, 6]).animGroups)
            rest) :=
  ⟨⟨by decide, by decide, by decide, by decide, by decide⟩,
    c8_self_splice
      (Anim.V20 3 1 2 "a"
        [⟨GroupType.Transform, [⟨"A", [⟨"t", 0, 5, 0, 1, 2⟩]⟩]⟩,
          ⟨GroupType.Visibility, [⟨"V", [⟨"vt", 0, 0, 0, 0, 1⟩]⟩]⟩] [4, 5, 6])
      (by decide) (by decide) (by decide) (by decide) (by decide)⟩

theorem firstDiffIndex_nil_left (ms : List Nat) : firstDiffIndex [] ms = none := by
  simp [firstDiffIndex]

theorem firstDiffIndex_nil_right (rs : List Nat) : firstDiffIndex rs [] = none := by
  simp [firstDiffIndex]

theorem firstDiffIndex_cons (r m : Nat) (rs ms : List Nat) :
    firstDiffIndex (r :: rs) (m :: ms) =
      if r ≠ m then some 0 else (firstDiffIndex rs ms).map (fun i => i + 1) := by
  unfold firstDiffIndex
  rw [show (r :: rs).length = rs.length + 1 from rfl,
    show (m :: ms).length = ms.length + 1 from rfl,
    Nat.succ_min_succ, List.range_succ_eq_map]
  by_cases h : r ≠ m
  · rw [if_pos h]
    rw [List.find?_cons_of_pos _ (by simp [List.getD_cons_zero, h])]
  · rw [if_neg h]
    rw [List.find?_cons_of_neg _ (by simp [List.getD_cons_zero]; exact not_not.mp h)]
    rw [List.find?_map]
    have hp : ((fun i => decide ((r :: rs).getD i 0 ≠ (m :: ms).getD i 0)) ∘ Nat.succ)
        = (fun i => decide (rs.getD i 0 ≠ ms.getD i 0)) := by
      funext i
      simp [Function.comp, List.getD_cons_succ]
    rw [hp]

theorem firstMismatch_eq (rs : List Nat) :
    ∀ (ms : List Nat) (k : Nat),
      firstMismatch k rs ms =
        (firstDiffIndex rs ms).map (fun i => (k + i, rs.getD i 0, ms.getD i 0)) := by
  induction rs with
  | nil =>
    intro ms k
    rw [firstDiffIndex_nil_left]
    cases ms with
    | nil => rfl
    | cons m mrest => rfl
  | cons r rest ih =>
    intro ms k
    cases ms with
    | nil => rw [firstDiffIndex_nil_right]; rfl
    | cons m mrest =>
      rw [firstDiffIndex_cons]
      by_cases h : r ≠ m
      · rw [if_pos h]
        unfold firstMismatch
        rw [if_pos h]
        rfl
      · rw [if_neg h]
        unfold firstMismatch
        rw [if_neg h]
        rw [ih mrest (k + 1)]
        cases hfd : firstDiffIndex rest mrest with
        | none => rfl
        | some i =>
          simp only [Option.map_some']
          rw [show k + 1 + i = k + (i + 1) by omega]
          rfl

theorem validateNodes_eq_perBoneSpec (lookup : String → Option NodeData) :
    ∀ (nodes : List NodeData),
      validateNodes lookup nodes = perBoneSpec lookup nodes := by
  intro nodes
  induction nodes with
  | nil => rfl
  | cons rn rest ih =>
    unfold validateNodes perBoneSpec boneValues
    cases h0 : rn.tracks.get? 0 with
    | none => exact ih
    | some tr =>
      dsimp only
      cases htv : tr.values with
      | nonTransform => exact ih
      | transform rv =>
        dsimp only
        cases hlk : lookup rn.name with
        | none => rfl
        | some mn =>
          dsimp only
          cases h1 : mn.tracks.get? 0 with
          | none => rfl
          | some mtr =>
            dsimp only
            cases hmv : mtr.values with
            | nonTransform => rfl
            | transform mv =>
              dsimp only
              by_cases hlen : rv.length ≠ mv.length
              · rw [if_pos hlen, if_pos hlen]
              · rw [if_neg hlen, if_neg hlen]
                rw [firstMismatch_eq rv mv 0]
                cases hfd : firstDiffIndex rv mv with
                | none => exact ih
                | some i =>
                  rw [show Option.map (fun i => (0 + i, rv.getD i 0, mv.getD i 0)) (some i)
                      = some (i, rv.getD i 0, mv.getD i 0) by simp]

/-- C6 (confirmed): on a decoded pair with matching final-frame-index and
Transform groups on both sides, `validate_anim` is exactly the
spec-modelled per-bone check `perBoneSpec` over the reference Transform
group's nodes with the candidate's name-keyed node lookup: bad reference
tracks are skipped (never `Unsafe`), a missing candidate node, a missing
or mistyped candidate track, a length mismatch (reporting both lengths),
and a first differing frame (naming bone, frame and both values) each
yield `Unsafe`, and exhausting all bones yields `Safe`. -/
theorem c6_per_bone_validation (r m : AnimData) (rg mg : GroupData)
    (hffi : r.final_frame_index = m.final_frame_index)
    (hrg : get_group_by_type r GroupType.Transform = some rg)
    (hmg : get_group_by_type m GroupType.Transform = some mg) :
    validate_anim (Except.ok r) (Except.ok m)
      = perBoneSpec (nodeLookup mg.nodes) rg.nodes := by
  unfold validate_anim
  dsimp only
  rw [if_neg (fun hne => hne hffi)]
  rw [hrg, hmg]
  exact validateNodes_eq_perBoneSpec (nodeLookup mg.nodes) rg.nodes

/-- C6 witness: a one-bone pair differing at frame 1; the validator and
the spec-modelled per-bone check agree (both report the bone, frame and
values). -/
theorem c6_per_bone_validation_witness :
    ((⟨2, 0, 5, [⟨GroupType.Transform, [⟨"B", [⟨TrackValues.transform [1, 2]⟩]⟩]⟩]⟩ :
        AnimData).final_frame_index
      = (⟨2, 0, 5, [⟨GroupType.Transform, [⟨"B", [⟨TrackValues.transform [1, 3]⟩]⟩]⟩]⟩ :
        AnimData).final_frame_index ∧
      get_group_by_type
        (⟨2, 0, 5, [⟨GroupType.Transform, [⟨"B", [⟨TrackValues.transform [1, 2]⟩]⟩]⟩]⟩ :
          AnimData) GroupType.Transform
        = some ⟨GroupType.Transform, [⟨"B", [⟨TrackValues.transform [1, 2]⟩]⟩]⟩ ∧
      get_group_by_type
        (⟨2, 0, 5, [⟨GroupType.Transform, [⟨"B", [⟨TrackValues.transform [1, 3]⟩]⟩]⟩]⟩ :
          AnimData) GroupType.Transform
        = some ⟨GroupType.Transform, [⟨"B", [⟨TrackValues.transform [1, 3]⟩]⟩]⟩) ∧
      validate_anim
        (Except.ok ⟨2, 0, 5, [⟨GroupType.Transform, [⟨"B", [⟨TrackValues.transform [1, 2]⟩]⟩]⟩]⟩)
        (Except.ok ⟨2, 0, 5, [⟨GroupType.Transform, [⟨"B", [⟨TrackValues.transform [1, 3]⟩]⟩]⟩]⟩)
        = perBoneSpec
            (nodeLookup [⟨"B", [⟨TrackValues.transform [1, 3]⟩]⟩])
            [⟨"B", [⟨TrackValues.transform [1, 2]⟩]⟩] :=
  ⟨⟨rfl, rfl, rfl⟩,
    c6_per_bone_validation
      ⟨2, 0, 5, [⟨GroupType.Transform, [⟨"B", [⟨TrackValues.transform [1, 2]⟩]⟩]⟩]⟩
      ⟨2, 0, 5, [⟨GroupType.Transform, [⟨"B", [⟨TrackValues.transform [1, 3]⟩]⟩]⟩]⟩
      ⟨GroupType.Transform, [⟨"B", [⟨TrackValues.transform [1, 2]⟩]⟩]⟩
      ⟨GroupType.Transform, [⟨"B", [⟨TrackValues.transform [1, 3]⟩]⟩]⟩
      rfl rfl rfl⟩

/-- C1 (corrected): for reference containers whose Transform nodes are
well-formed — exactly one track each, pairwise-distinct names, in-bounds
payload ranges, total payload below `2^32` — every successful splice
output contains, for each reference Transform node, a node of that name
in a Transform group whose payload bytes equal the reference node's,
whatever the modified container holds.  (The two-track counterexample
`c1_counterexample` shows the unrestricted claim is false.) -/
theorem c1_bone_preservation (r m out : Anim)
    (h1 : ∀ n ∈ transformNodes r.animGroups, n.tracks.length = 1)
    (h2 : ((transformNodes r.animGroups).map (fun n => n.name)).Nodup)
    (h3 : ∀ n ∈ transformNodes r.animGroups, ∀ t ∈ n.tracks,
      t.data_offset + t.data_size ≤ r.animBuffer.length)
    (hcap : sumNodeSizes (transformNodes r.animGroups) < 4294967296)
    (hok : splice_anim r m = SpliceResult.ok out)
    (n : Node) (hn : n ∈ transformNodes r.animGroups) :
    ∃ g ∈ out.animGroups, g.group_type = GroupType.Transform ∧
      ∃ n' ∈ g.nodes, n'.name = n.name ∧
        nodePayloadBytes out.animBuffer n' = nodePayloadBytes r.animBuffer n := by
  obtain ⟨refData, st1, tN1, st2, tN2, st3, mGs, st4, fGs, hg, hp1, hp2, hp3, hp4,
    hgs, hbuf, _, _⟩ := splice_ok_components r m out hok
  have htrack : ∀ n' ∈ transformNodes r.animGroups, ∃ t, n'.tracks = [t] := by
    intro n' hn'
    exact List.length_eq_one.mp (h1 n' hn')
  have hgather := gatherReference_eq r.animGroups r.animBuffer (by
    intro n' hn'
    obtain ⟨t, ht⟩ := htrack n' hn'
    exact ⟨t, by rw [ht]; rfl, h3 n' hn' t (by rw [ht]; exact List.mem_cons_self t [])⟩)
  rw [hg] at hgather
  injection hgather with hrd
  have hmap : refData.nameToBuffer =
      ((transformNodes r.animGroups).map
        (fun n => (n.name, headTrackBytes r.animBuffer n))).reverse := by
    rw [hrd]
  obtain ⟨st1', tN1', hftp, ha1, hoff1, hext1, hfa⟩ :=
    refTransformPhase_spec refData.nameToBuffer (headTrackBytes r.animBuffer)
      r.animGroups ⟨0, []⟩ rfl (by dsimp only; omega)
      (by
        intro n' hn'
        obtain ⟨t, ht⟩ := htrack n' hn'
        refine ⟨t, ht, ?_, ?_⟩
        · rw [hmap]
          exact gather_lookup r.animBuffer r.animGroups h2 n' hn'
        · have hh : headTrackBytes r.animBuffer n'
              = regionBytes r.animBuffer t.data_offset t.data_size := by
            unfold headTrackBytes
            rw [ht]
            rfl
          rw [hh]
          exact regionBytes_length r.animBuffer t.data_offset t.data_size
            (h3 n' hn' t (by rw [ht]; exact List.mem_cons_self t [])))
  rw [hp1] at hftp
  injection hftp with hftp
  obtain ⟨hst1, htN1⟩ := Prod.mk.injEq .. |>.mp hftp
  subst hst1
  subst htN1
  obtain ⟨e2, he2⟩ := newBonesPhase_extends refData.nodeNames m.animBuffer
    m.animGroups st1 st2 tN2 hp2
  obtain ⟨e3, he3⟩ := modGroupsPhase_extends m.animBuffer m.animGroups st2 st3 mGs hp3
  obtain ⟨e4, he4⟩ := fallbackPhase_extends refData.nameToBuffer
    (m.animGroups.map (fun g => g.group_type)) r.animGroups st3 st4 fGs hp4
  have hfinal : out.animBuffer = st1.new_buffer ++ (e2 ++ (e3 ++ e4)) := by
    rw [hbuf, he4, he3, he2, List.append_assoc, List.append_assoc]
  obtain ⟨n', hn', hreb⟩ := forall₂_mem_left hfa n hn
  obtain ⟨hname, t, off, ht, ht', hbytes⟩ := hreb
  refine ⟨⟨GroupType.Transform, tN1 ++ tN2⟩, by rw [hgs]; exact List.mem_cons_self _ _,
    rfl, n', List.mem_append_left tN2 hn', hname, ?_⟩
  have hlhs : nodePayloadBytes out.animBuffer n'
      = trackBytes out.animBuffer { t with data_offset := off } := by
    unfold nodePayloadBytes
    rw [ht']
    simp
  have hrhs : nodePayloadBytes r.animBuffer n = headTrackBytes r.animBuffer n := by
    unfold nodePayloadBytes headTrackBytes
    rw [ht]
    simp
  rw [hlhs, hrhs, hfinal]
  exact hbytes (e2 ++ (e3 ++ e4))

/-- C1 witness: a single-bone, well-formed reference spliced with a
modified container that tries to override that bone keeps the reference
payload. -/
theorem c1_bone_preservation_witness :
    ((∀ n ∈ transformNodes (Anim.V20 3 1 2 "ref"
        [⟨GroupType.Transform, [⟨"A", [⟨"t", 0, 5, 0, 0, 2⟩]⟩]⟩] [4, 5]).animGroups,
        n.tracks.length = 1) ∧
      ((transformNodes (Anim.V20 3 1 2 "ref"
        [⟨GroupType.Transform, [⟨"A", [⟨"t", 0, 5, 0, 0, 2⟩]⟩]⟩] [4, 5]).animGroups).map
          (fun n => n.name)).Nodup ∧
      (∀ n ∈ transformNodes (Anim.V20 3 1 2 "ref"
        [⟨GroupType.Transform, [⟨"A", [⟨"t", 0, 5, 0, 0, 2⟩]⟩]⟩] [4, 5]).animGroups,
        ∀ t ∈ n.tracks, t.data_offset + t.data_size ≤
          (Anim.V20 3 1 2 "ref"
            [⟨GroupType.Transform, [⟨"A", [⟨"t", 0, 5, 0, 0, 2⟩]⟩]⟩] [4, 5]).animBuffer.length) ∧
      sumNodeSizes (transformNodes (Anim.V20 3 1 2 "ref"
        [⟨GroupType.Transform, [⟨"A", [⟨"t", 0, 5, 0, 0, 2⟩]⟩]⟩] [4, 5]).animGroups)
        < 4294967296 ∧
      ⟨"A", [⟨"t", 0, 5, 0, 0, 2⟩]⟩ ∈ transformNodes (Anim.V20 3 1 2 "ref"
        [⟨GroupType.Transform, [⟨"A", [⟨"t", 0, 5, 0, 0, 2⟩]⟩]⟩] [4, 5]).animGroups) ∧
      (∃ g ∈ (Anim.V20 3 1 2 "ref"
          [⟨GroupType.Transform, [⟨"A", [⟨"t", 0, 5, 0, 0, 2⟩]⟩]⟩] [4, 5]).animGroups,
        g.group_type = GroupType.Transform ∧
        ∃ n' ∈ g.nodes, n'.name = (⟨"A", [⟨"t", 0, 5, 0, 0, 2⟩]⟩ : Node).name ∧
          nodePayloadBytes (Anim.V20 3 1 2 "ref"
              [⟨GroupType.Transform, [⟨"A", [⟨"t", 0, 5, 0, 0, 2⟩]⟩]⟩] [4, 5]).animBuffer n'
            = nodePayloadBytes (Anim.V20 3 1 2 "ref"
                [⟨GroupType.Transform, [⟨"A", [⟨"t", 0, 5, 0, 0, 2⟩]⟩]⟩] [4, 5]).animBuffer
              ⟨"A", [⟨"t", 0, 5, 0, 0, 2⟩]⟩) :=
  ⟨⟨by decide, by decide, by decide, by decide, by decide⟩,
    c1_bone_preservation
      (Anim.V20 3 1 2 "ref" [⟨GroupType.Transform, [⟨"A", [⟨"t", 0, 5, 0, 0, 2⟩]⟩]⟩] [4, 5])
      (Anim.V20 9 8 7 "mod" [⟨GroupType.Transform, [⟨"A", [⟨"x", 0, 9, 0, 0, 1⟩]⟩]⟩] [3])
      (Anim.V20 3 1 2 "ref" [⟨GroupType.Transform, [⟨"A", [⟨"t", 0, 5, 0, 0, 2⟩]⟩]⟩] [4, 5])
      (by decide) (by decide) (by decide) (by decide) rfl
      ⟨"A", [⟨"t", 0, 5, 0, 0, 2⟩]⟩ (by decide)⟩
